import Mathlib

set_option maxRecDepth 10000
set_option maxHeartbeats 1000000

/-!
# OptDePng — formal model of the PNG reverse-filter kernels

A shallow embedding of the OptDePng repository (a SIMD-optimized PNG
reverse filter).  Machine integers are modelled as `Nat` (for `uint8_t`
and `uint32_t` values) and `Int` (for `int32_t` intermediates); reductions
modulo `2 ^ w` are written explicitly wherever the C code can wrap.
Fallible operations — reads or writes outside the buffer, and reads
through the `NULL` previous-row pointer `u` that the kernels carry during
the first row — are modelled in the `Option` monad: `none` stands for an
execution with no defined result (out-of-bounds access / null dereference
in the C source).
-/

namespace OptDePng

/-- `Sum` from the source: add and pack to BYTE, `(a + b) & 0xFF`. -/
def Sum (a b : Nat) : Nat := (a + b) % 256

/-- `Min` from the source: `a < b ? a : b`. -/
def Min (a b : Nat) : Nat := if a < b then a else b

/-- `Max` from the source: `a > b ? a : b`. -/
def Max (a b : Nat) : Nat := if a > b then a else b

/-- Arithmetic right shift of an `int32_t` value, i.e. floor division by
`2 ^ n`; faithful for every value an `int32_t` can hold. -/
def sar (x : Int) (n : Nat) : Int := Int.fdiv x (2 ^ n)

/-- Two's-complement bitwise NOT of an `int32_t` value (as an integer,
`~x = -x - 1`; exact for all in-range values). -/
def i32not (x : Int) : Int := -x - 1

/-- Two's-complement bitwise AND of two `int32_t` values, computed on the
32-bit encodings. -/
def i32and (x y : Int) : Nat :=
  Nat.land (x % (2 ^ 32)).toNat (y % (2 ^ 32)).toNat

/-- `UDiv3` from the source: unsigned division by 3 as multiply and shift,
`(x * 0xAB) >> 9`; the argument is an `int32_t` in `[0, 255]` in all uses. -/
def UDiv3 (x : Int) : Int := sar (x * 0xAB) 9

/-- `Abs` from the source: `x >= 0 ? x : -x`. -/
def Abs (x : Int) : Int := if x ≥ 0 then x else -x

/-- `Avg` from the source: the PNG floor average `(a + b) >> 1`
(on `uint32_t`, no wrap for byte inputs). -/
def Avg (a b : Nat) : Nat := (a + b) / 2

/-- `PaethRef` from the source.  Parameters are named `(b, a, c)` exactly
as in the C code; intermediates are `int32_t`. -/
def PaethRef (b a c : Nat) : Nat :=
  let pa : Int := (b : Int) - (c : Int)
  let pb : Int := (a : Int) - (c : Int)
  let pc : Int := pa + pb
  let pa := Abs pa
  let pb := Abs pb
  let pc := Abs pc
  if pa ≤ pb ∧ pa ≤ pc then a else if pb ≤ pc then b else c

/-- `PaethOpt` from the source: the branchless Paeth predictor.  The
`int32_t` intermediates never overflow for byte inputs; the final
`static_cast<uint32_t>` is the explicit `% 2 ^ 32`. -/
def PaethOpt (a b c : Nat) : Nat :=
  let minAB : Int := (Min a b : Nat)
  let maxAB : Int := (Max a b : Nat)
  let divAB : Int := UDiv3 (maxAB - minAB)
  let minAB := minAB - (c : Int)
  let maxAB := maxAB - (c : Int)
  ((((c : Int) + (i32and maxAB (i32not (sar (divAB + minAB) 31)) : Nat)
               + (i32and minAB (i32not (sar (divAB - maxAB) 31)) : Nat))
    % (2 ^ 32)).toNat)

/-! ## The reference kernel `OptDePngFilterRef`

The image is a flat list of bytes; `p` is the cursor (an index into the
buffer), `u` the previous-row cursor.  `u` is `none` while it is the C
`NULL` during the first row; afterwards it is `some (p - bpl)`, which can
point before the buffer (hence `Int`) if an unrecognized filter byte
desynchronised the walk.  Reads and writes outside the buffer and reads
through `u = none` return `none`. -/

/-- Guarded byte store: the C kernels write through raw pointers, so an
out-of-bounds write has no defined result. -/
def setByte (buf : List Nat) (i v : Nat) : Option (List Nat) :=
  if i < buf.length then some (buf.set i v) else none

/-- Read `u[k]` through the previous-row cursor; `u = none` is the NULL
pointer of the first row. -/
def getU (buf : List Nat) (u : Option Int) (k : Nat) : Option Nat :=
  match u with
  | none => none
  | some ui => if 0 ≤ ui + (k : Int) then buf.get? (ui + (k : Int)).toNat else none

/-- The Sub loop: `for (i = bpl - bpp; i != 0; i--, p++) p[bpp] = Sum(p[bpp], p[0])`. -/
def subLoop (bpp : Nat) : Nat → Nat → List Nat → Option (List Nat)
  | 0, _, buf => some buf
  | i + 1, p, buf => do
      let x ← buf.get? (p + bpp)
      let y ← buf.get? p
      let buf ← setByte buf (p + bpp) (Sum x y)
      subLoop bpp i (p + 1) buf

/-- The Up loop: `for (i = bpl; i != 0; i--, p++, u++) p[0] = Sum(p[0], u[0])`. -/
def upLoop : Nat → Nat → Option Int → List Nat → Option (List Nat)
  | 0, _, _, buf => some buf
  | i + 1, p, u, buf => do
      let x ← buf.get? p
      let y ← getU buf u 0
      let buf ← setByte buf p (Sum x y)
      upLoop i (p + 1) (u.map (· + 1)) buf

/-- The Avg prologue: `for (i = 0; i < bpp; i++) p[i] = Sum(p[i], u[i] >> 1)`;
`k` counts the remaining iterations, `i` is the current index. -/
def avgFirst : Nat → Nat → Nat → Option Int → List Nat → Option (List Nat)
  | 0, _, _, _, buf => some buf
  | k + 1, p, i, u, buf => do
      let x ← buf.get? (p + i)
      let y ← getU buf u i
      let buf ← setByte buf (p + i) (Sum x (y / 2))
      avgFirst k p (i + 1) u buf

/-- The Avg main loop:
`for (i = bpl - bpp; i != 0; i--, p++, u++) p[bpp] = Sum(p[bpp], Avg(p[0], u[0]))`. -/
def avgLoop (bpp : Nat) : Nat → Nat → Option Int → List Nat → Option (List Nat)
  | 0, _, _, buf => some buf
  | i + 1, p, u, buf => do
      let x ← buf.get? (p + bpp)
      let a ← buf.get? p
      let y ← getU buf u 0
      let buf ← setByte buf (p + bpp) (Sum x (Avg a y))
      avgLoop bpp i (p + 1) (u.map (· + 1)) buf

/-- The Paeth prologue: `for (i = 0; i < bpp; i++) p[i] = Sum(p[i], u[i])`. -/
def paethFirst : Nat → Nat → Nat → Option Int → List Nat → Option (List Nat)
  | 0, _, _, _, buf => some buf
  | k + 1, p, i, u, buf => do
      let x ← buf.get? (p + i)
      let y ← getU buf u i
      let buf ← setByte buf (p + i) (Sum x y)
      paethFirst k p (i + 1) u buf

/-- The Paeth main loop (reference kernel): `for (i = bpl - bpp; i != 0;
i--, p++, u++) p[bpp] = Sum(p[bpp], PaethRef(p[0], u[bpp], u[0]))`. -/
def paethLoop (bpp : Nat) : Nat → Nat → Option Int → List Nat → Option (List Nat)
  | 0, _, _, buf => some buf
  | i + 1, p, u, buf => do
      let x ← buf.get? (p + bpp)
      let a ← buf.get? p
      let bU ← getU buf u bpp
      let cU ← getU buf u 0
      let buf ← setByte buf (p + bpp) (Sum x (PaethRef a bU cU))
      paethLoop bpp i (p + 1) (u.map (· + 1)) buf

/-- One row of `OptDePngFilterRef`: the body of `switch (filter)`.  `p` is
the index of the first pixel byte (the filter byte has been consumed),
`bpl1` the decremented `bpl`.  The C code of `OptDePngFilterOpt_T` is
character-for-character identical (with `bpp` a template parameter), so
both scalar kernels share this row function.  A filter byte `≥ 5` matches
no `case` and the row's bytes are untouched. -/
def refRow (filter bpp bpl1 p : Nat) (u : Option Int) (buf : List Nat) :
    Option (List Nat) :=
  match filter with
  | 0 => some buf
  | 1 => subLoop bpp (bpl1 - bpp) p buf
  | 2 => upLoop bpl1 p u buf
  | 3 => do
      let buf ← avgFirst bpp p 0 u buf
      avgLoop bpp (bpl1 - bpp) p (u.map (· + (bpp : Int))) buf
  | 4 => do
      let buf ← paethFirst bpp p 0 u buf
      paethLoop bpp (bpl1 - bpp) p u buf
  | _ => some buf

/-- After a recognized filter the cursor has advanced `bpl1` bytes past
the filter byte; an unrecognized filter byte leaves it in place. -/
def rowAdvance (filter bpl1 : Nat) : Nat := if filter < 5 then bpl1 else 0

/-- The row loop `do { ... } while (--y != 0)` shared by the scalar
kernels, recursing on the remaining row count; after each row the C code
sets `u = p - bpl`. -/
def refRows (bpp bpl1 : Nat) : Nat → Nat → Option Int → List Nat → Option (List Nat)
  | 0, _, _, buf => some buf
  | y + 1, p, u, buf => do
      let filter ← buf.get? p
      let buf ← refRow filter bpp bpl1 (p + 1) u buf
      let p1 := p + 1 + rowAdvance filter bpl1
      refRows bpp bpl1 y p1 (some ((p1 : Int) - (bpl1 : Int))) buf

/-- `OptDePngFilterRef`.  On entry the C code decrements `bpl` once.  With
`h = 0` the C `do/while` wraps its `uint32_t` counter and runs ~`2^32`
rows — undefined on any real buffer — modelled as `none`. -/
def OptDePngFilterRef (buf : List Nat) (h bpp bpl : Nat) : Option (List Nat) :=
  if h = 0 then none else refRows bpp (bpl - 1) h 0 none buf

/-- `OptDePngFilterOpt_T<bpp>`: its C body is character-for-character the
body of `OptDePngFilterRef` (with `bpp` a compile-time constant), so the
embedding reuses the same row loop. -/
def OptDePngFilterOpt_T (bpp : Nat) (buf : List Nat) (h bpl : Nat) : Option (List Nat) :=
  if h = 0 then none else refRows bpp (bpl - 1) h 0 none buf

/-- `OptDePngFilterOpt`: the dispatch `switch (bpp)`; no `default` case,
so an unsupported `bpp` leaves the buffer untouched. -/
def OptDePngFilterOpt (buf : List Nat) (h bpp bpl : Nat) : Option (List Nat) :=
  match bpp with
  | 1 => OptDePngFilterOpt_T 1 buf h bpl
  | 2 => OptDePngFilterOpt_T 2 buf h bpl
  | 3 => OptDePngFilterOpt_T 3 buf h bpl
  | 4 => OptDePngFilterOpt_T 4 buf h bpl
  | 6 => OptDePngFilterOpt_T 6 buf h bpl
  | 8 => OptDePngFilterOpt_T 8 buf h bpl
  | _ => some buf

/-! ## The test harness: random image generator and comparator -/

/-- The fixed 299-byte table `OptDePngRandomData` of the harness. -/
def OptDePngRandomData : List Nat := [
  0xD9, 0xFA, 0xA7, 0x20, 0x6B, 0xD3, 0x41, 0xC9, 0x1A, 0x27, 0x2F, 0x64, 0x59,
  0x85, 0x47, 0x1C, 0xFC, 0x3E, 0xA3, 0x5B, 0x3C, 0xD2, 0xB5, 0xB6, 0x80, 0xBB,
  0x84, 0x3C, 0xD4, 0x94, 0x3A, 0x6D, 0xC2, 0x1B, 0x3D, 0x5F, 0x82, 0xD9, 0x1A,
  0x7F, 0xC6, 0x8D, 0x39, 0xDD, 0x07, 0xAD, 0x7A, 0x40, 0x8D, 0x37, 0x56, 0x12,
  0x8B, 0x51, 0xAF, 0x9D, 0x17, 0xBD, 0xD0, 0x61, 0x58, 0xC8, 0x05, 0x44, 0x9B,
  0xCA, 0xD4, 0xD0, 0xD0, 0xB9, 0x83, 0x75, 0x31, 0x4B, 0x09, 0xEC, 0x52, 0xEB,
  0xE5, 0xE8, 0xAA, 0xF6, 0xDD, 0x79, 0x36, 0x61, 0x17, 0xB1, 0x8A, 0x48, 0x00,
  0x1A, 0x9D, 0xDC, 0x51, 0x9F, 0x34, 0x7A, 0x48, 0x56, 0xC9, 0xF3, 0x6A, 0x81,
  0x9B, 0x47, 0x56, 0x64, 0x00, 0x30, 0x60, 0x04, 0x90, 0x4B, 0xC2, 0x48, 0xE3,
  0xED, 0x62, 0xDF, 0x46, 0xEF, 0xFF, 0xFF, 0xFF, 0xFF, 0xFF, 0xFF, 0xFF, 0xFF,
  0xFE, 0x94, 0xEE, 0x00, 0xA9, 0x3B, 0x86, 0x9B, 0xD8, 0xEE, 0x3D, 0x9E, 0x32,
  0x00, 0x00, 0x00, 0x00, 0x92, 0x61, 0x9F, 0x3B, 0x22, 0xB0, 0xB9, 0xB3, 0xB0,
  0x01, 0x01, 0x01, 0x01, 0xF4, 0x83, 0xFC, 0x49, 0xA9, 0xD2, 0x89, 0xE0, 0x17,
  0x74, 0x3E, 0xBD, 0x28, 0x74, 0x5E, 0xF8, 0x6D, 0xD2, 0x43, 0xB7, 0x5A, 0xB5,
  0xE6, 0xA4, 0xC7, 0xA4, 0x46, 0xD3, 0x00, 0x1A, 0x26, 0x0C, 0x65, 0x24, 0xAD,
  0xA7, 0xEA, 0xF4, 0xBD, 0xF6, 0x63, 0x2B, 0xEC, 0x1E, 0xDF, 0x0C, 0xBD, 0x50,
  0xEB, 0x71, 0xD9, 0x86, 0x31, 0x62, 0x5E, 0xE7, 0x4D, 0x8B, 0xD1, 0x11, 0x5B,
  0x26, 0x48, 0x9F, 0x8E, 0xE6, 0x7B, 0xE1, 0x0C, 0xF8, 0xCD, 0xF8, 0x90, 0x1E,
  0x4E, 0x24, 0xFE, 0x90, 0xD3, 0xA2, 0x2D, 0xFC, 0x4F, 0x3A, 0x2F, 0x1B, 0xE2,
  0xB8, 0xBF, 0x11, 0x68, 0x80, 0xCB, 0x26, 0xAD, 0x1C, 0x58, 0x4E, 0x57, 0x30,
  0x00, 0x00, 0x00, 0x86, 0x4A, 0x50, 0x36, 0x90, 0x5C, 0x40, 0xA7, 0x38, 0x92,
  0x03, 0xF0, 0x39, 0x82, 0x40, 0xED, 0x39, 0x22, 0x82, 0x90, 0x67, 0xDF, 0x95,
  0x34, 0x15, 0x8A, 0x0F, 0x25, 0x94, 0x56, 0xFD, 0x38, 0x85, 0x9B, 0x06, 0x22]

/-- `OptDePngRandomWrap`: advance an index and wrap it modulo the table
size (`x += advance; return x < count ? x : x - count`). -/
def OptDePngRandomWrap (x advance count : Nat) : Nat :=
  let x := x + advance
  if x < count then x else x - count

/-- The inner byte loop of `OptDePngRandomImage`: emits `x` data bytes,
alternating reads from `rIndex0` (advancing by 1) and `rIndex1`
(advancing by 2).  The C `for (;;)` decrements an unsigned `x` after each
byte and would run `2^32` times when called with `x = 0` (the generator
guards against that case). -/
def randData : Nat -> Nat -> Nat -> List Nat × Nat × Nat
  | 0, i0, i1 => ([], i0, i1)
  | 1, i0, i1 =>
      ([OptDePngRandomData.getD i0 0],
       OptDePngRandomWrap i0 1 OptDePngRandomData.length, i1)
  | x + 2, i0, i1 =>
      let b0 := OptDePngRandomData.getD i0 0
      let i0 := OptDePngRandomWrap i0 1 OptDePngRandomData.length
      let b1 := OptDePngRandomData.getD i1 0
      let i1 := OptDePngRandomWrap i1 2 OptDePngRandomData.length
      let r := randData x i0 i1
      (b0 :: b1 :: r.1, r.2)

/-- The row loop of `OptDePngRandomImage`: `remaining` rows left, `y` the
index of the current row, `f` the mutable cycling filter state.  Row 0
always gets filter byte `0`; later rows get `filter` itself when
`filter < 5`, and the cycled `f` otherwise (`if (++f >= 5) f = 0`, with
the increment wrapping as `uint32_t`). -/
def randRows (w1 filter : Nat) : Nat -> Nat -> Nat -> Nat -> Nat -> List Nat
  | 0, _, _, _, _ => []
  | remaining + 1, y, i0, i1, f =>
      let fb :=
        if y = 0 then 0
        else if filter < 5 then filter
        else if 5 ≤ (f + 1) % 2 ^ 32 then 0 else (f + 1) % 2 ^ 32
      let f1 :=
        if y = 0 then f
        else if filter < 5 then f
        else if 5 ≤ (f + 1) % 2 ^ 32 then 0 else (f + 1) % 2 ^ 32
      let d := randData w1 i0 i1
      (fb :: d.1) ++ randRows w1 filter remaining (y + 1) d.2.1 d.2.2 f1

/-- `OptDePngRandomImage`.  `w` is multiplied by `bpp` on entry (as
`uint32_t`); the allocation size is `(w + 1) * h`.  With `w * bpp = 0`
the inner byte loop wraps its unsigned counter and writes far out of
bounds, and with `(w * bpp + 1) * h ≥ 2^32` the allocation size wraps so
the loop overruns the allocation; both are modelled as `none` (the model
otherwise assumes `malloc` succeeds). -/
def OptDePngRandomImage (w h bpp filter seed : Nat) : Option (List Nat) :=
  let rCount := OptDePngRandomData.length
  let rIndex0 := seed % rCount
  let rIndex1 := seed * 33 % 2 ^ 32 % rCount
  let w1 := w * bpp % 2 ^ 32
  if w1 = 0 ∨ 2 ^ 32 ≤ (w1 + 1) * h then none
  else some (randRows w1 filter h 0 rIndex0 rIndex1 filter)

/-- The innermost byte loop of `OptDePngCompare`
(`for (i = 0; i < bpp; i++)` — both cursors advance in lockstep, so a
single offset suffices); `some true` means "no mismatch so far". -/
def cmpBytes (pA pB : List Nat) : Nat -> Nat -> Option Bool
  | 0, _ => some true
  | i + 1, off => do
      let aVal ← pA.get? off
      let bVal ← pB.get? off
      if aVal ≠ bVal then some false
      else cmpBytes pA pB i (off + 1)

/-- The per-pixel loop of `OptDePngCompare` (`for (x = 0; x < w; x++)`). -/
def cmpPixels (pA pB : List Nat) (bpp : Nat) : Nat -> Nat -> Option Bool
  | 0, _ => some true
  | x + 1, off => do
      let ok ← cmpBytes pA pB bpp off
      if ok then cmpPixels pA pB bpp x (off + bpp) else some false

/-- The row loop of `OptDePngCompare`: compare the filter bytes, reject a
filter byte `≥ kPngFilterCount = 5`, then compare the row's pixel bytes. -/
def cmpRows (pA pB : List Nat) (w bpp : Nat) : Nat -> Nat -> Option Bool
  | 0, _ => some true
  | y + 1, off => do
      let aFilter ← pA.get? off
      let bFilter ← pB.get? off
      if aFilter ≠ bFilter then some false
      else if 5 ≤ aFilter then some false
      else do
        let ok ← cmpPixels pA pB bpp w (off + 1)
        if ok then cmpRows pA pB w bpp y (off + 1 + w * bpp) else some false

/-- `OptDePngCompare` (the printf reporting is omitted; the returned
boolean is the function's value).  `false` on a `bpl` mismatch
(`bpl != w * bpp + 1`, computed in `uint32_t`), on differing filter
bytes, on a filter byte `≥ 5`, or on any differing pixel byte. -/
def OptDePngCompare (pA pB : List Nat) (w h bpp bpl : Nat) : Option Bool :=
  if bpl ≠ (w * bpp + 1) % 2 ^ 32 then some false
  else cmpRows pA pB w bpp h 0

/-! ## 128-bit SIMD model

`m128` is a 128-bit SSE register as its 16 bytes in memory order (index
0 = lowest address = least significant).  Every operation reduces each
produced byte modulo 256, so register bytes are always `< 256`.  16-bit
(word), 32-bit (dword) and 64-bit (qword) lane views are little-endian
groupings of the bytes.  Aligned and unaligned loads/stores are modelled
alike: the kernels' scalar alignment heads establish the 16-byte
alignment the aligned forms require, and alignment faults are not
modelled.  Shuffle selectors are written in lane order (result lane `i`
takes source lane `sᵢ`), so `_MM_SHUFFLE(d, c, b, a)` at a call site
becomes `(a, b, c, d)` here. -/

abbrev m128 := List Nat

/-- Interleave two lists element by element. -/
def interleave : List Nat → List Nat → List Nat
  | a :: as, b :: bs => a :: b :: interleave as bs
  | _, _ => []

/-- Group bytes pairwise into little-endian 16-bit words. -/
def pairUp : List Nat → List Nat
  | a :: b :: t => (a + 256 * b) :: pairUp t
  | _ => []

/-- Group bytes into little-endian 32-bit dwords. -/
def quadUp : List Nat → List Nat
  | a :: b :: c :: d :: t =>
      (a + 256 * b + 65536 * c + 16777216 * d) :: quadUp t
  | _ => []

/-- A 16-bit word as its two little-endian bytes. -/
def unpairW (w : Nat) : List Nat := [w % 256, w / 256 % 256]

/-- A 32-bit dword as its four little-endian bytes. -/
def unquadD (x : Nat) : List Nat :=
  [x % 256, x / 256 % 256, x / 65536 % 256, x / 16777216 % 256]

/-- A 64-bit qword as its eight little-endian bytes. -/
def unoctQ (x : Nat) : List Nat :=
  [x % 256, x / 2 ^ 8 % 256, x / 2 ^ 16 % 256, x / 2 ^ 24 % 256,
   x / 2 ^ 32 % 256, x / 2 ^ 40 % 256, x / 2 ^ 48 % 256, x / 2 ^ 56 % 256]

def toWords (v : m128) : List Nat := pairUp v
def ofWords (ws : List Nat) : m128 := ws.bind unpairW
def toDwords (v : m128) : List Nat := quadUp v
def ofDwords (ds : List Nat) : m128 := ds.bind unquadD
def toQwords (v : m128) : List Nat :=
  match quadUp v with
  | a :: b :: c :: d :: _ => [a + 2 ^ 32 * b, c + 2 ^ 32 * d]
  | _ => []
def ofQwords (qs : List Nat) : m128 := qs.bind unoctQ

/-- A 16-bit lane read as a signed `int16_t`. -/
def toI16 (w : Nat) : Int :=
  if w % 65536 < 32768 then (w % 65536 : Nat) else (w % 65536 : Nat) - 65536

/-- A signed value stored back into a 16-bit lane. -/
def ofI16 (x : Int) : Nat := (x % 65536).toNat

def mm_setzero_si128 : m128 := List.replicate 16 0
def mm_set1_epi16 (x : Nat) : m128 := ofWords (List.replicate 8 (x % 65536))
def mm_set1_epi32 (x : Nat) : m128 := ofDwords (List.replicate 4 (x % 2 ^ 32))
def mm_setr_epi32 (x0 x1 x2 x3 : Nat) : m128 :=
  ofDwords [x0 % 2 ^ 32, x1 % 2 ^ 32, x2 % 2 ^ 32, x3 % 2 ^ 32]
def mm_cvtsi32_si128 (x : Nat) : m128 := ofDwords [x % 2 ^ 32, 0, 0, 0]
def mm_cvtsi128_si32 (a : m128) : Nat := (toDwords a).getD 0 0

def mm_add_epi8 (a b : m128) : m128 := List.zipWith (fun x y => (x + y) % 256) a b
def mm_and_si128 (a b : m128) : m128 := List.zipWith Nat.land a b
def mm_or_si128 (a b : m128) : m128 := List.zipWith Nat.lor a b
/-- `_mm_andnot_si128 a b = (~a) & b` (bytes are `< 256`, so `~x` on a
byte is `255 - x`). -/
def mm_andnot_si128 (a b : m128) : m128 :=
  List.zipWith (fun x y => Nat.land (255 - x % 256) y) a b

def mm_slli_si128 (a : m128) (n : Nat) : m128 := List.replicate n 0 ++ a.take (16 - n)
def mm_srli_si128 (a : m128) (n : Nat) : m128 := a.drop n ++ List.replicate n 0

def mm_add_epi16 (a b : m128) : m128 :=
  ofWords (List.zipWith (fun x y => (x + y) % 65536) (toWords a) (toWords b))
def mm_sub_epi16 (a b : m128) : m128 :=
  ofWords (List.zipWith (fun x y => (x + 65536 - y % 65536) % 65536) (toWords a) (toWords b))
def mm_min_epi16 (a b : m128) : m128 :=
  ofWords (List.zipWith (fun x y => if toI16 x ≤ toI16 y then x % 65536 else y % 65536)
    (toWords a) (toWords b))
def mm_max_epi16 (a b : m128) : m128 :=
  ofWords (List.zipWith (fun x y => if toI16 x ≤ toI16 y then y % 65536 else x % 65536)
    (toWords a) (toWords b))
def mm_mulhi_epu16 (a b : m128) : m128 :=
  ofWords (List.zipWith (fun x y => x % 65536 * (y % 65536) / 65536) (toWords a) (toWords b))
def mm_srai_epi16 (a : m128) (n : Nat) : m128 :=
  ofWords ((toWords a).map (fun w => ofI16 (sar (toI16 w) n)))
def mm_srli_epi16 (a : m128) (n : Nat) : m128 :=
  ofWords ((toWords a).map (fun w => w % 65536 / 2 ^ n))
def mm_slli_epi16 (a : m128) (n : Nat) : m128 :=
  ofWords ((toWords a).map (fun w => w * 2 ^ n % 65536))
def mm_srli_epi32 (a : m128) (n : Nat) : m128 :=
  ofDwords ((toDwords a).map (fun d => d % 2 ^ 32 / 2 ^ n))
def mm_slli_epi64 (a : m128) (n : Nat) : m128 :=
  ofQwords ((toQwords a).map (fun q => q * 2 ^ n % 2 ^ 64))
def mm_srli_epi64 (a : m128) (n : Nat) : m128 :=
  ofQwords ((toQwords a).map (fun q => q % 2 ^ 64 / 2 ^ n))
/-- `_mm_mul_epu32`: dword lanes 0 and 2 of each operand multiplied into
the two 64-bit lanes. -/
def mm_mul_epu32 (a b : m128) : m128 :=
  ofQwords [(toDwords a).getD 0 0 * (toDwords b).getD 0 0,
            (toDwords a).getD 2 0 * (toDwords b).getD 2 0]

def mm_unpacklo_epi8 (a b : m128) : m128 := interleave (a.take 8) (b.take 8)
def mm_unpackhi_epi8 (a b : m128) : m128 := interleave (a.drop 8) (b.drop 8)
def mm_unpacklo_epi16 (a b : m128) : m128 :=
  ofWords (interleave ((toWords a).take 4) ((toWords b).take 4))
def mm_unpackhi_epi16 (a b : m128) : m128 :=
  ofWords (interleave ((toWords a).drop 4) ((toWords b).drop 4))
def mm_unpackhi_epi32 (a b : m128) : m128 :=
  ofDwords (interleave ((toDwords a).drop 2) ((toDwords b).drop 2))

/-- `_mm_packus_epi16`: saturate a signed 16-bit lane to `[0, 255]`. -/
def satU8 (w : Nat) : Nat :=
  if toI16 w < 0 then 0 else if 255 < toI16 w then 255 else (toI16 w).toNat
def mm_packus_epi16 (a b : m128) : m128 := (toWords a ++ toWords b).map satU8

def mm_shuffle_epi32 (a : m128) (s0 s1 s2 s3 : Nat) : m128 :=
  ofDwords [(toDwords a).getD s0 0, (toDwords a).getD s1 0,
            (toDwords a).getD s2 0, (toDwords a).getD s3 0]
def mm_shufflelo_epi16 (a : m128) (s0 s1 s2 s3 : Nat) : m128 :=
  ofWords ([(toWords a).getD s0 0, (toWords a).getD s1 0,
            (toWords a).getD s2 0, (toWords a).getD s3 0] ++ (toWords a).drop 4)
def mm_shufflehi_epi16 (a : m128) (s0 s1 s2 s3 : Nat) : m128 :=
  ofWords ((toWords a).take 4 ++
           [(toWords a).getD (4 + s0) 0, (toWords a).getD (4 + s1) 0,
            (toWords a).getD (4 + s2) 0, (toWords a).getD (4 + s3) 0])

/-! ### SIMD memory access -/

/-- Read `n` consecutive bytes; out of bounds has no defined result. -/
def loadBytes (buf : List Nat) (off n : Nat) : Option (List Nat) :=
  if off + n ≤ buf.length then some ((buf.drop off).take n) else none

/-- Overwrite `bs.length` consecutive bytes starting at `off`. -/
def writeBytes : List Nat → Nat → List Nat → List Nat
  | buf, _, [] => buf
  | buf, off, b :: bs => writeBytes (buf.set off b) (off + 1) bs

/-- Guarded store of consecutive bytes. -/
def storeBytes (buf : List Nat) (off : Nat) (bs : List Nat) : Option (List Nat) :=
  if off + bs.length ≤ buf.length then some (writeBytes buf off bs) else none

def mm_load_si128 (buf : List Nat) (off : Nat) : Option m128 := loadBytes buf off 16
def mm_store_si128 (buf : List Nat) (off : Nat) (v : m128) : Option (List Nat) :=
  storeBytes buf off (v.take 16)
def mm_loadl_epi64 (buf : List Nat) (off : Nat) : Option m128 :=
  (loadBytes buf off 8).map (· ++ List.replicate 8 0)
def mm_storel_epi64 (buf : List Nat) (off : Nat) (v : m128) : Option (List Nat) :=
  storeBytes buf off (v.take 8)

/-- Little-endian value of a byte list. -/
def leVal (bs : List Nat) : Nat := bs.foldr (fun b acc => b + 256 * acc) 0

/-- `reinterpret_cast<uint16_t*>(p)[0]`. -/
def loadU16 (buf : List Nat) (off : Nat) : Option Nat := (loadBytes buf off 2).map leVal
/-- `reinterpret_cast<uint32_t*>(p)[0]`. -/
def loadU32 (buf : List Nat) (off : Nat) : Option Nat := (loadBytes buf off 4).map leVal

/-- A load of `n` bytes through the previous-row cursor `u` at offset `k`
(`u = none` is the first row's NULL pointer). -/
def loadUVec (buf : List Nat) (u : Option Int) (k n : Nat) : Option (List Nat) :=
  match u with
  | none => none
  | some ui =>
      if 0 ≤ ui + (k : Int) then loadBytes buf (ui + (k : Int)).toNat n else none

/-- `OptAlignDiff` from `optglobals.h`:
`(alignment - ((uintptr_t)p & (alignment - 1))) & (alignment - 1)`. -/
def OptAlignDiff (p alignment : Nat) : Nat :=
  Nat.land (alignment - Nat.land p (alignment - 1)) (alignment - 1)

/-- `PNG_SSE_SLL_ADDB_1X` (and each half of `..._2X`):
`T0 = _mm_slli_si128(P0, Shift); P0 = _mm_add_epi8(P0, T0)`. -/
def pngSseSllAddb (p0 : m128) (shift : Nat) : m128 :=
  mm_add_epi8 p0 (mm_slli_si128 p0 shift)

/-- The constant `rcp3 = _mm_set1_epi16(0xAB << 7)` of the Paeth kernels. -/
def rcp3 : m128 := mm_set1_epi16 (0xAB * 2 ^ 7)

/-- `PNG_SSE_PAETH(Dst, A, B, C)`: the vector Paeth predictor on signed
16-bit lanes. -/
def pngSsePaeth (a b c : m128) : m128 :=
  let minAB := mm_min_epi16 a b
  let maxAB := mm_max_epi16 a b
  let divAB := mm_mulhi_epu16 (mm_sub_epi16 maxAB minAB) rcp3
  let minAB := mm_sub_epi16 minAB c
  let maxAB := mm_sub_epi16 maxAB c
  let dst := mm_add_epi16 c
    (mm_andnot_si128 (mm_srai_epi16 (mm_add_epi16 divAB minAB) 15) maxAB)
  mm_add_epi16 dst
    (mm_andnot_si128 (mm_srai_epi16 (mm_sub_epi16 divAB maxAB) 15) minAB)

/-! ## The SSE2 kernel `OptDePngFilterSSE2`

A faithful transcription of `OptDePngFilterSSE2_T`.  The kernel's control
flow depends on the machine address of the buffer (the scalar alignment
heads consume `OptAlignDiff(p + bpp, 16)` bytes), so the embedding takes
the buffer's base address `base` as an explicit parameter.  Each
`while (i >= N)` loop is one recursive function on the remaining byte
count `i`; loop-carried registers are passed along.  Scalar head and
tail loops reuse the scalar loop functions — their C bodies are
character-for-character the reference kernel's inner loops (with
`PaethOpt` in place of `PaethRef` for the Paeth tail, see
`paethOptLoop`). -/

/-- `_mm_loadl_epi64` through the previous-row cursor. -/
def loadlU (buf : List Nat) (u : Option Int) (k : Nat) : Option m128 :=
  (loadUVec buf u k 8).map (· ++ List.replicate 8 0)

/-- `reinterpret_cast<uint32_t*>(u)[0]` through the previous-row cursor. -/
def loadU32U (buf : List Nat) (u : Option Int) (k : Nat) : Option Nat :=
  (loadUVec buf u k 4).map leVal

/-- The 64-byte Sub loop for `bpp = 1`: two interleaved 16-byte log-step
prefix sums (registers `p0, p2`), then the dependent pair `p1, p3`, with
the running carry broadcast from byte 15. -/
def sse2Sub1L64 (buf : List Nat) (p : Nat) (p0 : m128) (i : Nat) :
    Option (List Nat × Nat × m128 × Nat) :=
  if h64 : 64 ≤ i then do
    let v ← mm_load_si128 buf (p + 1)
    let p0 := mm_add_epi8 p0 v
    let p1 ← mm_load_si128 buf (p + 17)
    let p2 ← mm_load_si128 buf (p + 33)
    let p3 ← mm_load_si128 buf (p + 49)
    let p0 := pngSseSllAddb p0 1
    let p2 := pngSseSllAddb p2 1
    let p0 := pngSseSllAddb p0 2
    let p2 := pngSseSllAddb p2 2
    let p0 := pngSseSllAddb p0 4
    let p2 := pngSseSllAddb p2 4
    let p0 := pngSseSllAddb p0 8
    let p2 := pngSseSllAddb p2 8
    let buf ← mm_store_si128 buf (p + 1) p0
    let p0 := mm_srli_si128 p0 15
    let t2 := mm_srli_si128 p2 15
    let p1 := mm_add_epi8 p1 p0
    let p3 := mm_add_epi8 p3 t2
    let p1 := pngSseSllAddb p1 1
    let p3 := pngSseSllAddb p3 1
    let p1 := pngSseSllAddb p1 2
    let p3 := pngSseSllAddb p3 2
    let p1 := pngSseSllAddb p1 4
    let p3 := pngSseSllAddb p3 4
    let p1 := pngSseSllAddb p1 8
    let p3 := pngSseSllAddb p3 8
    let buf ← mm_store_si128 buf (p + 17) p1
    let p1 := mm_unpackhi_epi8 p1 p1
    let p1 := mm_unpackhi_epi16 p1 p1
    let p1 := mm_shuffle_epi32 p1 3 3 3 3
    let p2 := mm_add_epi8 p2 p1
    let p3 := mm_add_epi8 p3 p1
    let buf ← mm_store_si128 buf (p + 33) p2
    let buf ← mm_store_si128 buf (p + 49) p3
    let p0 := mm_srli_si128 p3 15
    sse2Sub1L64 buf (p + 64) p0 (i - 64)
  else some (buf, p, p0, i)
termination_by i
decreasing_by omega

/-- The 16-byte Sub loop, shared shape of all six specializations: add
the carry, run the per-`bpp` shift schedule (`shifts`), store, and keep
the top `bpp` bytes (`_mm_srli_si128(p0, 16 - bpp)`) as the next carry. -/
def sse2SubL16 (bpp : Nat) (shifts : List Nat) (buf : List Nat) (p : Nat)
    (p0 : m128) (i : Nat) : Option (List Nat × Nat × m128 × Nat) :=
  if h16 : 16 ≤ i then do
    let v ← mm_load_si128 buf (p + bpp)
    let p0 := mm_add_epi8 p0 v
    let p0 := shifts.foldl pngSseSllAddb p0
    let buf ← mm_store_si128 buf (p + bpp) p0
    let p0 := mm_srli_si128 p0 (16 - bpp)
    sse2SubL16 bpp shifts buf (p + 16) p0 (i - 16)
  else some (buf, p, p0, i)
termination_by i
decreasing_by omega

/-- The 64-byte Sub loop for `bpp = 2` (shift schedule 2, 4, 8; carry is
the top word, broadcast with `unpackhi_epi16` + dword shuffle). -/
def sse2Sub2L64 (buf : List Nat) (p : Nat) (p0 : m128) (i : Nat) :
    Option (List Nat × Nat × m128 × Nat) :=
  if h64 : 64 ≤ i then do
    let v ← mm_load_si128 buf (p + 2)
    let p0 := mm_add_epi8 p0 v
    let p1 ← mm_load_si128 buf (p + 18)
    let p2 ← mm_load_si128 buf (p + 34)
    let p3 ← mm_load_si128 buf (p + 50)
    let p0 := pngSseSllAddb p0 2
    let p2 := pngSseSllAddb p2 2
    let p0 := pngSseSllAddb p0 4
    let p2 := pngSseSllAddb p2 4
    let p0 := pngSseSllAddb p0 8
    let p2 := pngSseSllAddb p2 8
    let buf ← mm_store_si128 buf (p + 2) p0
    let p0 := mm_srli_si128 p0 14
    let t2 := mm_srli_si128 p2 14
    let p1 := mm_add_epi8 p1 p0
    let p3 := mm_add_epi8 p3 t2
    let p1 := pngSseSllAddb p1 2
    let p3 := pngSseSllAddb p3 2
    let p1 := pngSseSllAddb p1 4
    let p3 := pngSseSllAddb p3 4
    let p1 := pngSseSllAddb p1 8
    let p3 := pngSseSllAddb p3 8
    let buf ← mm_store_si128 buf (p + 18) p1
    let p1 := mm_unpackhi_epi16 p1 p1
    let p1 := mm_shuffle_epi32 p1 3 3 3 3
    let p2 := mm_add_epi8 p2 p1
    let p3 := mm_add_epi8 p3 p1
    let buf ← mm_store_si128 buf (p + 34) p2
    let buf ← mm_store_si128 buf (p + 50) p3
    let p0 := mm_srli_si128 p3 14
    sse2Sub2L64 buf (p + 64) p0 (i - 64)
  else some (buf, p, p0, i)
termination_by i
decreasing_by omega

/-- The 64-byte Sub loop for `bpp = 3` (shift schedule 3, 6, 12; the
3-byte carry is fabricated with a dword multiply by `0x01000001` and two
word shuffles). -/
def sse2Sub3L64 (buf : List Nat) (p : Nat) (p0 : m128) (i : Nat) :
    Option (List Nat × Nat × m128 × Nat) :=
  if h64 : 64 ≤ i then do
    let ext3b := mm_set1_epi32 0x01000001
    let v ← mm_load_si128 buf (p + 3)
    let p0 := mm_add_epi8 p0 v
    let p1 ← mm_load_si128 buf (p + 19)
    let p2 ← mm_load_si128 buf (p + 35)
    let p0 := pngSseSllAddb p0 3
    let p2 := pngSseSllAddb p2 3
    let p0 := pngSseSllAddb p0 6
    let p2 := pngSseSllAddb p2 6
    let p0 := pngSseSllAddb p0 12
    let p2 := pngSseSllAddb p2 12
    let p3 ← mm_load_si128 buf (p + 51)
    let t0 := mm_srli_si128 p0 13
    let t2 := mm_srli_si128 p2 13
    let p1 := mm_add_epi8 p1 t0
    let p3 := mm_add_epi8 p3 t2
    let p1 := pngSseSllAddb p1 3
    let p3 := pngSseSllAddb p3 3
    let p1 := pngSseSllAddb p1 6
    let p3 := pngSseSllAddb p3 6
    let p1 := pngSseSllAddb p1 12
    let p3 := pngSseSllAddb p3 12
    let buf ← mm_store_si128 buf (p + 3) p0
    let p0 := mm_shuffle_epi32 p1 3 3 3 3
    let p0 := mm_srli_epi32 p0 8
    let p0 := mm_mul_epu32 p0 ext3b
    let p0 := mm_shufflelo_epi16 p0 0 1 2 0
    let p0 := mm_shufflehi_epi16 p0 1 2 0 1
    let buf ← mm_store_si128 buf (p + 19) p1
    let p2 := mm_add_epi8 p2 p0
    let p0 := mm_shuffle_epi32 p0 1 2 3 1
    let buf ← mm_store_si128 buf (p + 35) p2
    let p0 := mm_add_epi8 p0 p3
    let buf ← mm_store_si128 buf (p + 51) p0
    let p0 := mm_srli_si128 p0 13
    sse2Sub3L64 buf (p + 64) p0 (i - 64)
  else some (buf, p, p0, i)
termination_by i
decreasing_by omega

/-- The 64-byte Sub loop for `bpp = 4` (shift schedule 4, 8; carry is the
top dword broadcast by a dword shuffle). -/
def sse2Sub4L64 (buf : List Nat) (p : Nat) (p0 : m128) (i : Nat) :
    Option (List Nat × Nat × m128 × Nat) :=
  if h64 : 64 ≤ i then do
    let v ← mm_load_si128 buf (p + 4)
    let p0 := mm_add_epi8 p0 v
    let p1 ← mm_load_si128 buf (p + 20)
    let p2 ← mm_load_si128 buf (p + 36)
    let p3 ← mm_load_si128 buf (p + 52)
    let p0 := pngSseSllAddb p0 4
    let p2 := pngSseSllAddb p2 4
    let p0 := pngSseSllAddb p0 8
    let p2 := pngSseSllAddb p2 8
    let buf ← mm_store_si128 buf (p + 4) p0
    let p0 := mm_srli_si128 p0 12
    let t2 := mm_srli_si128 p2 12
    let p1 := mm_add_epi8 p1 p0
    let p3 := mm_add_epi8 p3 t2
    let p1 := pngSseSllAddb p1 4
    let p3 := pngSseSllAddb p3 4
    let p1 := pngSseSllAddb p1 8
    let p3 := pngSseSllAddb p3 8
    let p0 := mm_shuffle_epi32 p1 3 3 3 3
    let buf ← mm_store_si128 buf (p + 20) p1
    let p2 := mm_add_epi8 p2 p0
    let p0 := mm_add_epi8 p0 p3
    let buf ← mm_store_si128 buf (p + 36) p2
    let buf ← mm_store_si128 buf (p + 52) p0
    let p0 := mm_srli_si128 p0 12
    sse2Sub4L64 buf (p + 64) p0 (i - 64)
  else some (buf, p, p0, i)
termination_by i
decreasing_by omega

/-- The 64-byte Sub loop for `bpp = 6` (shift schedule 6, 12; the 6-byte
carry is fabricated with dword and word shuffles). -/
def sse2Sub6L64 (buf : List Nat) (p : Nat) (p0 : m128) (i : Nat) :
    Option (List Nat × Nat × m128 × Nat) :=
  if h64 : 64 ≤ i then do
    let v ← mm_load_si128 buf (p + 6)
    let p0 := mm_add_epi8 p0 v
    let p1 ← mm_load_si128 buf (p + 22)
    let p2 ← mm_load_si128 buf (p + 38)
    let p0 := pngSseSllAddb p0 6
    let p2 := pngSseSllAddb p2 6
    let p0 := pngSseSllAddb p0 12
    let p2 := pngSseSllAddb p2 12
    let p3 ← mm_load_si128 buf (p + 54)
    let buf ← mm_store_si128 buf (p + 6) p0
    let p0 := mm_srli_si128 p0 10
    let t1 := mm_srli_si128 p2 10
    let p1 := mm_add_epi8 p1 p0
    let p3 := mm_add_epi8 p3 t1
    let p1 := pngSseSllAddb p1 6
    let p3 := pngSseSllAddb p3 6
    let p1 := pngSseSllAddb p1 12
    let p3 := pngSseSllAddb p3 12
    let p0 := mm_shuffle_epi32 p1 2 3 2 3
    let p0 := mm_shufflelo_epi16 p0 1 2 3 1
    let p0 := mm_shufflehi_epi16 p0 2 3 1 2
    let buf ← mm_store_si128 buf (p + 22) p1
    let p2 := mm_add_epi8 p2 p0
    let p0 := mm_shuffle_epi32 p0 1 2 3 1
    let buf ← mm_store_si128 buf (p + 38) p2
    let p0 := mm_add_epi8 p0 p3
    let buf ← mm_store_si128 buf (p + 54) p0
    let p0 := mm_srli_si128 p0 10
    sse2Sub6L64 buf (p + 64) p0 (i - 64)
  else some (buf, p, p0, i)
termination_by i
decreasing_by omega

/-- The 64-byte Sub loop for `bpp = 8` (single shift 8; carry broadcast
by dword shuffles of the high qword). -/
def sse2Sub8L64 (buf : List Nat) (p : Nat) (p0 : m128) (i : Nat) :
    Option (List Nat × Nat × m128 × Nat) :=
  if h64 : 64 ≤ i then do
    let v ← mm_load_si128 buf (p + 8)
    let p0 := mm_add_epi8 p0 v
    let p1 ← mm_load_si128 buf (p + 24)
    let p2 ← mm_load_si128 buf (p + 40)
    let p3 ← mm_load_si128 buf (p + 56)
    let p0 := pngSseSllAddb p0 8
    let p2 := pngSseSllAddb p2 8
    let buf ← mm_store_si128 buf (p + 8) p0
    let p0 := mm_srli_si128 p0 8
    let t2 := mm_shuffle_epi32 p2 2 3 2 3
    let p1 := mm_add_epi8 p1 p0
    let p1 := pngSseSllAddb p1 8
    let p3 := pngSseSllAddb p3 8
    let p0 := mm_shuffle_epi32 p1 2 3 2 3
    let p3 := mm_add_epi8 p3 t2
    let buf ← mm_store_si128 buf (p + 24) p1
    let p2 := mm_add_epi8 p2 p0
    let p0 := mm_add_epi8 p0 p3
    let buf ← mm_store_si128 buf (p + 40) p2
    let buf ← mm_store_si128 buf (p + 56) p0
    let p0 := mm_srli_si128 p0 8
    sse2Sub8L64 buf (p + 64) p0 (i - 64)
  else some (buf, p, p0, i)
termination_by i
decreasing_by omega

/-- The Sub case of `OptDePngFilterSSE2_T`: when at least 32 bytes
remain, run the scalar alignment head, then the per-`bpp` 64-byte and
16-byte vector loops, then the scalar tail. -/
def sse2SubCase (bpp base : Nat) (buf : List Nat) (p bpl1 : Nat) :
    Option (List Nat) := do
  let i := bpl1 - bpp
  let r ←
    if 32 ≤ i then do
      let j := OptAlignDiff (base + p + bpp) 16
      let buf ← subLoop bpp j p buf
      let p := p + j
      let i := i - j
      let r2 ←
        if bpp = 1 then do
          let b ← buf.get? p
          let (buf, p, p0, i) ← sse2Sub1L64 buf p (mm_cvtsi32_si128 b) i
          sse2SubL16 1 [1, 2, 4, 8] buf p p0 i
        else if bpp = 2 then do
          let b ← loadU16 buf p
          let (buf, p, p0, i) ← sse2Sub2L64 buf p (mm_cvtsi32_si128 b) i
          sse2SubL16 2 [2, 4, 8] buf p p0 i
        else if bpp = 3 then do
          let b ← loadU32 buf p
          let (buf, p, p0, i) ←
            sse2Sub3L64 buf p (mm_cvtsi32_si128 (Nat.land b 0x00FFFFFF)) i
          sse2SubL16 3 [3, 6, 12] buf p p0 i
        else if bpp = 4 then do
          let b ← loadU32 buf p
          let (buf, p, p0, i) ← sse2Sub4L64 buf p (mm_cvtsi32_si128 b) i
          sse2SubL16 4 [4, 8] buf p p0 i
        else if bpp = 6 then do
          let p0 ← mm_loadl_epi64 buf p
          let p0 := mm_slli_epi64 p0 16
          let p0 := mm_srli_epi64 p0 16
          let (buf, p, p0, i) ← sse2Sub6L64 buf p p0 i
          sse2SubL16 6 [6, 12] buf p p0 i
        else if bpp = 8 then do
          let p0 ← mm_loadl_epi64 buf p
          let (buf, p, p0, i) ← sse2Sub8L64 buf p p0 i
          sse2SubL16 8 [8] buf p p0 i
        else some (buf, p, mm_setzero_si128, i)
      some r2
    else some (buf, p, mm_setzero_si128, i)
  let (buf, p, _, i) := r
  subLoop bpp i p buf

/-- The 64-byte Up loop: four aligned loads from `p`, four unaligned
loads from `u`, byte adds, four stores. -/
def sse2UpL64 (buf : List Nat) (p : Nat) (u : Option Int) (i : Nat) :
    Option (List Nat × Nat × Option Int × Nat) :=
  if h64 : 64 ≤ i then do
    let u0 ← loadUVec buf u 0 16
    let u1 ← loadUVec buf u 16 16
    let p0 ← mm_load_si128 buf p
    let p1 ← mm_load_si128 buf (p + 16)
    let u2 ← loadUVec buf u 32 16
    let u3 ← loadUVec buf u 48 16
    let p0 := mm_add_epi8 p0 u0
    let p1 := mm_add_epi8 p1 u1
    let p2 ← mm_load_si128 buf (p + 32)
    let p3 ← mm_load_si128 buf (p + 48)
    let p2 := mm_add_epi8 p2 u2
    let p3 := mm_add_epi8 p3 u3
    let buf ← mm_store_si128 buf p p0
    let buf ← mm_store_si128 buf (p + 16) p1
    let buf ← mm_store_si128 buf (p + 32) p2
    let buf ← mm_store_si128 buf (p + 48) p3
    sse2UpL64 buf (p + 64) (u.map (· + 64)) (i - 64)
  else some (buf, p, u, i)
termination_by i
decreasing_by omega

/-- The 8-byte Up loop. -/
def sse2UpL8 (buf : List Nat) (p : Nat) (u : Option Int) (i : Nat) :
    Option (List Nat × Nat × Option Int × Nat) :=
  if h8 : 8 ≤ i then do
    let u0 ← loadlU buf u 0
    let p0 ← mm_loadl_epi64 buf p
    let p0 := mm_add_epi8 p0 u0
    let buf ← mm_storel_epi64 buf p p0
    sse2UpL8 buf (p + 8) (u.map (· + 8)) (i - 8)
  else some (buf, p, u, i)
termination_by i
decreasing_by omega

/-- The Up case of `OptDePngFilterSSE2_T`: scalar head to 16-byte
alignment when at least 24 bytes remain, 64- and 8-byte vector loops,
scalar tail. -/
def sse2UpCase (base : Nat) (buf : List Nat) (p : Nat) (u : Option Int)
    (bpl1 : Nat) : Option (List Nat) := do
  let i := bpl1
  let r ←
    if 24 ≤ i then do
      let j := OptAlignDiff (base + p) 16
      let buf ← upLoop j p u buf
      let p := p + j
      let u := u.map (· + (j : Int))
      let i := i - j
      let (buf, p, u, i) ← sse2UpL64 buf p u i
      sse2UpL8 buf p u i
    else some (buf, p, u, i)
  let (buf, p, u, i) := r
  upLoop i p u buf

/-- The 8-byte Avg loop for `bpp = 1`: SIMD widening of `2*p + u` to
16-bit lanes, then a scalar walk over the eight lanes with the running
carry `t0` (`t0 = ((t0 + t1) >> 1) & 0xFF`). -/
def sse2Avg1L8 (buf : List Nat) (p : Nat) (u : Option Int) (t0 : Nat) (i : Nat) :
    Option (List Nat × Nat × Option Int × Nat) :=
  if h8 : 8 ≤ i then do
    let zero := mm_setzero_si128
    let P0 ← mm_loadl_epi64 buf (p + 1)
    let U0 ← loadlU buf u 0
    let P0 := mm_unpacklo_epi8 P0 zero
    let U0 := mm_unpacklo_epi8 U0 zero
    let P0 := mm_slli_epi16 P0 1
    let P0 := mm_add_epi16 P0 U0
    let t1 := mm_cvtsi128_si32 P0
    let P0 := mm_srli_si128 P0 4
    let t0 := (t0 + t1) / 2 % 256
    let t1 := t1 / 65536
    let buf ← setByte buf (p + 1) t0
    let t0 := (t0 + t1) / 2 % 256
    let t1 := mm_cvtsi128_si32 P0
    let P0 := mm_srli_si128 P0 4
    let buf ← setByte buf (p + 2) t0
    let t0 := (t0 + t1) / 2 % 256
    let t1 := t1 / 65536
    let buf ← setByte buf (p + 3) t0
    let t0 := (t0 + t1) / 2 % 256
    let t1 := mm_cvtsi128_si32 P0
    let P0 := mm_srli_si128 P0 4
    let buf ← setByte buf (p + 4) t0
    let t0 := (t0 + t1) / 2 % 256
    let t1 := t1 / 65536
    let buf ← setByte buf (p + 5) t0
    let t0 := (t0 + t1) / 2 % 256
    let t1 := mm_cvtsi128_si32 P0
    let buf ← setByte buf (p + 6) t0
    let t0 := (t0 + t1) / 2 % 256
    let t1 := t1 / 65536
    let buf ← setByte buf (p + 7) t0
    let t0 := (t0 + t1) / 2 % 256
    let buf ← setByte buf (p + 8) t0
    sse2Avg1L8 buf (p + 8) (u.map (· + 8)) t0 (i - 8)
  else some (buf, p, u, i)
termination_by i
decreasing_by omega

/-- The 16-byte Avg loop for `bpp = 4`: 16-bit lanes, two prefix-add
stages per half in 9-bit precision (`& 0x01FE` via `m01FF` after the
doubling), carry `t1`. -/
def sse2Avg4L16 (buf : List Nat) (p : Nat) (u : Option Int) (t1 : m128) (i : Nat) :
    Option (List Nat × Nat × Option Int × Nat) :=
  if h16 : 16 ≤ i then do
    let zero := mm_setzero_si128
    let m00FF := mm_set1_epi16 0x00FF
    let m01FF := mm_set1_epi16 0x01FF
    let p0 ← mm_load_si128 buf (p + 4)
    let u0 ← loadUVec buf u 0 16
    let p1 := p0
    let p0 := mm_unpacklo_epi8 p0 zero
    let u1 := u0
    let p0 := mm_slli_epi16 p0 1
    let u0 := mm_unpacklo_epi8 u0 zero
    let p0 := mm_add_epi16 p0 t1
    let p1 := mm_unpackhi_epi8 p1 zero
    let p0 := mm_add_epi16 p0 u0
    let p0 := mm_and_si128 p0 m01FF
    let u1 := mm_unpackhi_epi8 u1 zero
    let t1 := mm_slli_si128 p0 8
    let p0 := mm_slli_epi16 p0 1
    let p1 := mm_slli_epi16 p1 1
    let p0 := mm_add_epi16 p0 t1
    let p0 := mm_srli_epi16 p0 2
    let p1 := mm_add_epi16 p1 u1
    let p0 := mm_and_si128 p0 m00FF
    let t1 := mm_srli_si128 p0 8
    let p1 := mm_add_epi16 p1 t1
    let p1 := mm_and_si128 p1 m01FF
    let t1 := mm_slli_si128 p1 8
    let p1 := mm_slli_epi16 p1 1
    let t1 := mm_add_epi16 t1 p1
    let t1 := mm_srli_epi16 t1 2
    let t1 := mm_and_si128 t1 m00FF
    let p0 := mm_packus_epi16 p0 t1
    let t1 := mm_srli_si128 t1 8
    let buf ← mm_store_si128 buf (p + 4) p0
    sse2Avg4L16 buf (p + 16) (u.map (· + 16)) t1 (i - 16)
  else some (buf, p, u, i)
termination_by i
decreasing_by omega

/-- The 16-byte Avg loop for `bpp = 6`: three widened 6-byte triads,
iterated `u_k = (u_k + prev) >> 1; p_k += u_k`, repacked with shifts and
ORs; carry `t1` is re-widened at the top of each iteration. -/
def sse2Avg6L16 (buf : List Nat) (p : Nat) (u : Option Int) (t1 : m128) (i : Nat) :
    Option (List Nat × Nat × Option Int × Nat) :=
  if h16 : 16 ≤ i then do
    let zero := mm_setzero_si128
    let u0 ← loadUVec buf u 0 16
    let t1 := mm_unpacklo_epi8 t1 zero
    let p0 ← mm_load_si128 buf (p + 6)
    let p1 := mm_srli_si128 p0 6
    let u1 := mm_srli_si128 u0 6
    let p2 := mm_srli_si128 p0 12
    let u2 := mm_srli_si128 u0 12
    let p0 := mm_unpacklo_epi8 p0 zero
    let u0 := mm_unpacklo_epi8 u0 zero
    let p1 := mm_unpacklo_epi8 p1 zero
    let u1 := mm_unpacklo_epi8 u1 zero
    let p2 := mm_unpacklo_epi8 p2 zero
    let u2 := mm_unpacklo_epi8 u2 zero
    let u0 := mm_add_epi16 u0 t1
    let u0 := mm_srli_epi16 u0 1
    let p0 := mm_add_epi8 p0 u0
    let u1 := mm_add_epi16 u1 p0
    let u1 := mm_srli_epi16 u1 1
    let p1 := mm_add_epi8 p1 u1
    let u2 := mm_add_epi16 u2 p1
    let u2 := mm_srli_epi16 u2 1
    let p2 := mm_add_epi8 p2 u2
    let p0 := mm_slli_si128 p0 4
    let p0 := mm_packus_epi16 p0 p1
    let p0 := mm_slli_si128 p0 2
    let p0 := mm_srli_si128 p0 4
    let p2 := mm_packus_epi16 p2 p2
    let p2 := mm_slli_si128 p2 12
    let p0 := mm_or_si128 p0 p2
    let buf ← mm_store_si128 buf (p + 6) p0
    let t1 := mm_srli_si128 p0 10
    sse2Avg6L16 buf (p + 16) (u.map (· + 16)) t1 (i - 16)
  else some (buf, p, u, i)
termination_by i
decreasing_by omega

/-- The 16-byte Avg loop for `bpp = 8`: two independent halves, the low
half's result feeding the high half as carry. -/
def sse2Avg8L16 (buf : List Nat) (p : Nat) (u : Option Int) (t1 : m128) (i : Nat) :
    Option (List Nat × Nat × Option Int × Nat) :=
  if h16 : 16 ≤ i then do
    let zero := mm_setzero_si128
    let u0 ← loadUVec buf u 0 16
    let p0 ← mm_load_si128 buf (p + 8)
    let u1 := u0
    let p1 := p0
    let u0 := mm_unpacklo_epi8 u0 zero
    let p0 := mm_unpacklo_epi8 p0 zero
    let u0 := mm_add_epi16 u0 t1
    let p1 := mm_unpackhi_epi8 p1 zero
    let u0 := mm_srli_epi16 u0 1
    let u1 := mm_unpackhi_epi8 u1 zero
    let p0 := mm_add_epi8 p0 u0
    let u1 := mm_add_epi16 u1 p0
    let u1 := mm_srli_epi16 u1 1
    let p1 := mm_add_epi8 p1 u1
    let p0 := mm_packus_epi16 p0 p1
    let t1 := p1
    let buf ← mm_store_si128 buf (p + 8) p0
    sse2Avg8L16 buf (p + 16) (u.map (· + 16)) t1 (i - 16)
  else some (buf, p, u, i)
termination_by i
decreasing_by omega

/-- The Avg case of `OptDePngFilterSSE2_T`: the scalar prologue, then —
when at least 32 bytes remain — the alignment head and the per-`bpp`
vector loop (`bpp ∈ {2, 3}` have no vector path and fall through), then
the scalar tail. -/
def sse2AvgCase (bpp base : Nat) (buf : List Nat) (p : Nat) (u : Option Int)
    (bpl1 : Nat) : Option (List Nat) := do
  let buf ← avgFirst bpp p 0 u buf
  let i := bpl1 - bpp
  let u := u.map (· + (bpp : Int))
  let r ←
    if 32 ≤ i then do
      let j := OptAlignDiff (base + p + bpp) 16
      let buf ← avgLoop bpp j p u buf
      let p := p + j
      let u := u.map (· + (j : Int))
      let i := i - j
      if bpp = 1 then do
        let t0 ← buf.get? p
        sse2Avg1L8 buf p u t0 i
      else if bpp = 4 then do
        let b ← loadU32 buf p
        let t1 := mm_unpacklo_epi8 (mm_cvtsi32_si128 b) mm_setzero_si128
        sse2Avg4L16 buf p u t1 i
      else if bpp = 6 then do
        let t1 ← mm_loadl_epi64 buf p
        sse2Avg6L16 buf p u t1 i
      else if bpp = 8 then do
        let t1l ← mm_loadl_epi64 buf p
        let t1 := mm_unpacklo_epi8 t1l mm_setzero_si128
        sse2Avg8L16 buf p u t1 i
      else some (buf, p, u, i)
    else some (buf, p, u, i)
  let (buf, p, u, i) := r
  avgLoop bpp i p u buf

/-- The scalar Paeth loop of the SSE2 kernel's head and tail: identical
to `paethLoop` except that it calls `PaethOpt` instead of `PaethRef`
(`p[bpp] = Sum(p[bpp], PaethOpt(p[0], u[bpp], u[0]))`). -/
def paethOptLoop (bpp : Nat) : Nat → Nat → Option Int → List Nat → Option (List Nat)
  | 0, _, _, buf => some buf
  | i + 1, p, u, buf => do
      let x ← buf.get? (p + bpp)
      let a ← buf.get? p
      let bU ← getU buf u bpp
      let cU ← getU buf u 0
      let buf ← setByte buf (p + bpp) (Sum x (PaethOpt a bU cU))
      paethOptLoop bpp i (p + 1) (u.map (· + 1)) buf

/-- The Paeth loop for `bpp = 1`: scalar, with the previous `p` and `u`
bytes (`pz`, `uz`) carried between iterations. -/
def sse2Paeth1Loop (buf : List Nat) (p : Nat) (u : Option Int) (pz uz : Nat) :
    Nat → Option (List Nat)
  | 0 => some buf
  | k + 1 => do
      let u0 ← getU buf u 0
      let x ← buf.get? p
      let pz := (x + PaethOpt pz u0 uz) % 256
      let buf ← setByte buf p pz
      sse2Paeth1Loop buf (p + 1) (u.map (· + 1)) pz u0 k

/-- The 8-byte Paeth loop for `bpp = 3`: three 3-byte groups per block in
16-bit lanes, with inactive lanes masked out between stages. -/
def sse2Paeth3L8 (buf : List Nat) (p : Nat) (u : Option Int) (pz uz : m128)
    (i : Nat) : Option (List Nat × Nat × Option Int × Nat) :=
  if h8 : 8 ≤ i then do
    let zero := mm_setzero_si128
    let mask := mm_setr_epi32 0xFFFFFFFF 0x0000FFFF 0x00000000 0x00000000
    let u0 ← loadlU buf u 3
    let p0 ← mm_loadl_epi64 buf (p + 3)
    let u0 := mm_unpacklo_epi8 u0 zero
    let p0 := mm_unpacklo_epi8 p0 zero
    let u1 := mm_srli_si128 u0 6
    let uz := pngSsePaeth pz u0 uz
    let uz := mm_and_si128 uz mask
    let p0 := mm_add_epi8 p0 uz
    let uz := pngSsePaeth p0 u1 u0
    let uz := mm_and_si128 uz mask
    let uz := mm_slli_si128 uz 6
    let p0 := mm_add_epi8 p0 uz
    let p1 := mm_srli_si128 p0 6
    let u0b := mm_srli_si128 u1 6
    let u0c := pngSsePaeth p1 u0b u1
    let u0d := mm_slli_si128 u0c 12
    let p0 := mm_add_epi8 p0 u0d
    let pz := mm_srli_si128 p0 10
    let uz := mm_srli_si128 u1 4
    let p0 := mm_packus_epi16 p0 p0
    let buf ← mm_storel_epi64 buf (p + 3) p0
    sse2Paeth3L8 buf (p + 8) (u.map (· + 8)) pz uz (i - 8)
  else some (buf, p, u, i)
termination_by i
decreasing_by omega

/-- The 16-byte Paeth loop for `bpp = 4`: two 4-byte groups per widened
half, pairing `u_next` with `p_prev` via a dword shuffle. -/
def sse2Paeth4L16 (buf : List Nat) (p : Nat) (u : Option Int) (pz uz : m128)
    (i : Nat) : Option (List Nat × Nat × Option Int × Nat) :=
  if h16 : 16 ≤ i then do
    let zero := mm_setzero_si128
    let mask := mm_setr_epi32 0xFFFFFFFF 0xFFFFFFFF 0x00000000 0x00000000
    let p0 ← mm_load_si128 buf (p + 4)
    let u0 ← loadUVec buf u 4 16
    let p1 := mm_unpackhi_epi8 p0 zero
    let p0 := mm_unpacklo_epi8 p0 zero
    let u1 := mm_unpackhi_epi8 u0 zero
    let u0 := mm_unpacklo_epi8 u0 zero
    let uz := pngSsePaeth pz u0 uz
    let uz := mm_and_si128 uz mask
    let p0 := mm_add_epi8 p0 uz
    let uz := mm_shuffle_epi32 u0 2 3 0 1
    let u0 := pngSsePaeth p0 uz u0
    let u0 := mm_slli_si128 u0 8
    let p0 := mm_add_epi8 p0 u0
    let pz := mm_srli_si128 p0 8
    let uz2 := pngSsePaeth pz u1 uz
    let uz2 := mm_and_si128 uz2 mask
    let p1 := mm_add_epi8 p1 uz2
    let uz3 := mm_shuffle_epi32 u1 2 3 0 1
    let u1 := pngSsePaeth p1 uz3 u1
    let u1 := mm_slli_si128 u1 8
    let p1 := mm_add_epi8 p1 u1
    let pz := mm_srli_si128 p1 8
    let p0 := mm_packus_epi16 p0 p1
    let buf ← mm_store_si128 buf (p + 4) p0
    sse2Paeth4L16 buf (p + 16) (u.map (· + 16)) pz uz3 (i - 16)
  else some (buf, p, u, i)
termination_by i
decreasing_by omega

/-- The 16-byte Paeth loop for `bpp = 6`: three widened 6-byte groups,
reassembled with packs and shuffles; `pz`/`uz` rebuilt from the high
dwords. -/
def sse2Paeth6L16 (buf : List Nat) (p : Nat) (u : Option Int) (pz uz : m128)
    (i : Nat) : Option (List Nat × Nat × Option Int × Nat) :=
  if h16 : 16 ≤ i then do
    let zero := mm_setzero_si128
    let p0 ← mm_load_si128 buf (p + 6)
    let u0 ← loadUVec buf u 6 16
    let p1 := mm_srli_si128 p0 6
    let p0 := mm_unpacklo_epi8 p0 zero
    let u1 := mm_srli_si128 u0 6
    let u0 := mm_unpacklo_epi8 u0 zero
    let uz := pngSsePaeth pz u0 uz
    let p0 := mm_add_epi8 p0 uz
    let p2 := mm_srli_si128 p1 6
    let u2 := mm_srli_si128 u1 6
    let p1 := mm_unpacklo_epi8 p1 zero
    let u1 := mm_unpacklo_epi8 u1 zero
    let u0b := pngSsePaeth p0 u1 u0
    let p1 := mm_add_epi8 p1 u0b
    let p2 := mm_unpacklo_epi8 p2 zero
    let u2 := mm_unpacklo_epi8 u2 zero
    let u0c := pngSsePaeth p1 u2 u1
    let p2 := mm_add_epi8 p2 u0c
    let p0 := mm_slli_si128 p0 4
    let p0 := mm_packus_epi16 p0 p1
    let p0 := mm_slli_si128 p0 2
    let p0 := mm_srli_si128 p0 4
    let p2 := mm_shuffle_epi32 p2 0 1 0 1
    let u2 := mm_shuffle_epi32 u2 0 1 0 1
    let pz := mm_shuffle_epi32 (mm_unpackhi_epi32 p1 p2) 0 1 3 3
    let uz := mm_shuffle_epi32 (mm_unpackhi_epi32 u1 u2) 0 1 3 3
    let p2 := mm_packus_epi16 p2 p2
    let p2 := mm_slli_si128 p2 12
    let p0 := mm_or_si128 p0 p2
    let buf ← mm_store_si128 buf (p + 6) p0
    sse2Paeth6L16 buf (p + 16) (u.map (· + 16)) pz uz (i - 16)
  else some (buf, p, u, i)
termination_by i
decreasing_by omega

/-- The 16-byte Paeth loop for `bpp = 8`: two independent 8-byte chains
per block. -/
def sse2Paeth8L16 (buf : List Nat) (p : Nat) (u : Option Int) (pz uz : m128)
    (i : Nat) : Option (List Nat × Nat × Option Int × Nat) :=
  if h16 : 16 ≤ i then do
    let zero := mm_setzero_si128
    let p0 ← mm_load_si128 buf (p + 8)
    let u0 ← loadUVec buf u 8 16
    let p1 := mm_unpackhi_epi8 p0 zero
    let p0 := mm_unpacklo_epi8 p0 zero
    let u1 := mm_unpackhi_epi8 u0 zero
    let u0 := mm_unpacklo_epi8 u0 zero
    let uz := pngSsePaeth pz u0 uz
    let p0 := mm_add_epi8 p0 uz
    let pz := pngSsePaeth p0 u1 u0
    let pz := mm_add_epi8 pz p1
    let uz := u1
    let p0 := mm_packus_epi16 p0 pz
    let buf ← mm_store_si128 buf (p + 8) p0
    sse2Paeth8L16 buf (p + 16) (u.map (· + 16)) pz uz (i - 16)
  else some (buf, p, u, i)
termination_by i
decreasing_by omega

/-- The Paeth case of `OptDePngFilterSSE2_T`: fully scalar (with the
`pz`/`uz` rolling pair) for `bpp = 1`; otherwise the scalar prologue,
the alignment head, the per-`bpp` vector loop (none for `bpp = 2`), and
the scalar tail, all of which use `PaethOpt`. -/
def sse2PaethCase (bpp base : Nat) (buf : List Nat) (p : Nat) (u : Option Int)
    (bpl1 : Nat) : Option (List Nat) :=
  if bpp = 1 then
    sse2Paeth1Loop buf p u 0 0 bpl1
  else do
    let buf ← paethFirst bpp p 0 u buf
    let i := bpl1 - bpp
    let r ←
      if 32 ≤ i then do
        let j := OptAlignDiff (base + p + bpp) 16
        let buf ← paethOptLoop bpp j p u buf
        let p := p + j
        let u := u.map (· + (j : Int))
        let i := i - j
        if bpp = 3 then do
          let bP ← loadU32 buf p
          let bU ← loadU32U buf u 0
          let pz := mm_unpacklo_epi8 (mm_cvtsi32_si128 (Nat.land bP 0x00FFFFFF))
            mm_setzero_si128
          let uz := mm_unpacklo_epi8 (mm_cvtsi32_si128 (Nat.land bU 0x00FFFFFF))
            mm_setzero_si128
          sse2Paeth3L8 buf p u pz uz i
        else if bpp = 4 then do
          let bP ← loadU32 buf p
          let bU ← loadU32U buf u 0
          let pz := mm_unpacklo_epi8 (mm_cvtsi32_si128 bP) mm_setzero_si128
          let uz := mm_unpacklo_epi8 (mm_cvtsi32_si128 bU) mm_setzero_si128
          sse2Paeth4L16 buf p u pz uz i
        else if bpp = 6 then do
          let bP ← mm_loadl_epi64 buf p
          let bU ← loadlU buf u 0
          let pz := mm_unpacklo_epi8 bP mm_setzero_si128
          let uz := mm_unpacklo_epi8 bU mm_setzero_si128
          sse2Paeth6L16 buf p u pz uz i
        else if bpp = 8 then do
          let bP ← mm_loadl_epi64 buf p
          let bU ← loadlU buf u 0
          let pz := mm_unpacklo_epi8 bP mm_setzero_si128
          let uz := mm_unpacklo_epi8 bU mm_setzero_si128
          sse2Paeth8L16 buf p u pz uz i
        else some (buf, p, u, i)
      else some (buf, p, u, i)
    let (buf, p, u, i) := r
    paethOptLoop bpp i p u buf

/-- One row of `OptDePngFilterSSE2_T` (the body of its
`switch (filter)`). -/
def sse2Row (filter bpp bpl1 base p : Nat) (u : Option Int) (buf : List Nat) :
    Option (List Nat) :=
  match filter with
  | 0 => some buf
  | 1 => sse2SubCase bpp base buf p bpl1
  | 2 => sse2UpCase base buf p u bpl1
  | 3 => sse2AvgCase bpp base buf p u bpl1
  | 4 => sse2PaethCase bpp base buf p u bpl1
  | _ => some buf

/-- The row loop of `OptDePngFilterSSE2_T` (same structure as the scalar
kernels' row loop). -/
def sse2Rows (bpp bpl1 base : Nat) : Nat → Nat → Option Int → List Nat → Option (List Nat)
  | 0, _, _, buf => some buf
  | y + 1, p, u, buf => do
      let filter ← buf.get? p
      let buf ← sse2Row filter bpp bpl1 base (p + 1) u buf
      let p1 := p + 1 + rowAdvance filter bpl1
      sse2Rows bpp bpl1 base y p1 (some ((p1 : Int) - (bpl1 : Int))) buf

/-- `OptDePngFilterSSE2_T<bpp>`; `base` is the machine address of
`buf[0]` (the alignment heads depend on it).  As with the scalar
kernels, `h = 0` wraps the `uint32_t` row counter (modelled `none`). -/
def OptDePngFilterSSE2_T (bpp base : Nat) (buf : List Nat) (h bpl : Nat) :
    Option (List Nat) :=
  if h = 0 then none else sse2Rows bpp (bpl - 1) base h 0 none buf

/-- `OptDePngFilterSSE2`: the dispatch `switch (bpp)`; no `default`
case, so an unsupported `bpp` leaves the buffer untouched. -/
def OptDePngFilterSSE2 (base : Nat) (buf : List Nat) (h bpp bpl : Nat) :
    Option (List Nat) :=
  match bpp with
  | 1 => OptDePngFilterSSE2_T 1 base buf h bpl
  | 2 => OptDePngFilterSSE2_T 2 base buf h bpl
  | 3 => OptDePngFilterSSE2_T 3 base buf h bpl
  | 4 => OptDePngFilterSSE2_T 4 base buf h bpl
  | 6 => OptDePngFilterSSE2_T 6 base buf h bpl
  | 8 => OptDePngFilterSSE2_T 8 base buf h bpl
  | _ => some buf

/-- Modelled from the spec: the reference kernel as the spec describes
row 0 — "For row 0, a prefix of zero bytes MUST be visible to the kernel
wherever it would read `u`" — realized, as the spec's design notes
suggest, by laying a pre-zeroed `bpl - 1`-byte scratch row before the
image and pointing `u` at it.  The kernels in the source do NOT do this
(they carry a NULL `u` through row 0); this definition only states the
behavior the claim attributes to them. -/
def OptDePngFilterRefZ (buf : List Nat) (h bpp bpl : Nat) : Option (List Nat) :=
  if h = 0 then none
  else
    (refRows bpp (bpl - 1) h (bpl - 1) (some 0)
        (List.replicate (bpl - 1) 0 ++ buf)).map (·.drop (bpl - 1))

end OptDePng

open OptDePng

/-- The mask expression `v & ~(s >> 31)` of the source evaluates, for an
in-range `int32_t` shift operand, to the 32-bit encoding of `v` when
`s ≥ 0` and to `0` when `s < 0`. -/
theorem i32and_not_sar (v s : Int) (hs0 : -(2 ^ 31) ≤ s) (hs1 : s < 2 ^ 31) :
    ((i32and v (i32not (sar s 31)) : Nat) : Int) = if 0 ≤ s then v % 2 ^ 32 else 0 := by
  rw [sar, Int.fdiv_eq_ediv _ (by norm_num)]
  by_cases h : 0 ≤ s
  · have hd : s / 2 ^ 31 = 0 := by omega
    rw [hd, if_pos h]
    unfold i32and
    have h1 : ((i32not 0 : Int) % 2 ^ 32).toNat = 2 ^ 32 - 1 := by decide
    rw [h1]
    have h2 : Nat.land (v % 2 ^ 32).toNat (2 ^ 32 - 1) = (v % 2 ^ 32).toNat % 2 ^ 32 :=
      Nat.and_pow_two_sub_one_eq_mod (v % 2 ^ 32).toNat 32
    rw [h2]
    omega
  · have hd : s / 2 ^ 31 = -1 := by omega
    rw [hd, if_neg h]
    unfold i32and
    have h1 : ((i32not (-1) : Int) % 2 ^ 32).toNat = 2 ^ 0 - 1 := by decide
    rw [h1]
    have h2 : Nat.land (v % 2 ^ 32).toNat (2 ^ 0 - 1) = (v % 2 ^ 32).toNat % 2 ^ 0 :=
      Nat.and_pow_two_sub_one_eq_mod (v % 2 ^ 32).toNat 0
    rw [h2]
    omega


/-- C4: for every `x ∈ [0, 255]`, `UDiv3 x = (x * 0xAB) >> 9` equals the
integer (floor) division `x / 3`. -/
theorem UDiv3_eq_div3 (x : Int) (h0 : 0 ≤ x) (h255 : x ≤ 255) :
    UDiv3 x = x / 3 := by
  have hx : ∃ n : Nat, n ≤ 255 ∧ x = (n : Int) := by
    refine ⟨x.toNat, ?_, (Int.toNat_of_nonneg h0).symm⟩
    omega
  obtain ⟨n, hn, rfl⟩ := hx
  have : ∀ m : Fin 256, UDiv3 (m : Nat) = ((m : Nat) : Int) / 3 := by
    decide
  exact this ⟨n, by omega⟩

/-- Witness for C4: `UDiv3 200 = 66`. -/
theorem UDiv3_eq_div3_witness : UDiv3 200 = 200 / 3 :=
  UDiv3_eq_div3 200 (by decide) (by decide)

/-- C2: for all `(a, b, c)` with each component in `[0, 255]`,
`PaethOpt (a, b, c) = PaethRef (b, a, c)` (the source's optimized Paeth
agrees with the reference Paeth under the stated argument-order swap). -/
theorem PaethOpt_eq_PaethRef (a b c : Nat)
    (ha : a ≤ 255) (hb : b ≤ 255) (hc : c ≤ 255) :
    PaethOpt a b c = PaethRef b a c := by
  rcases Nat.lt_or_ge a b with hab | hab
  · have hmin : OptDePng.Min a b = a := if_pos hab
    have hmax : OptDePng.Max a b = b := if_neg (by omega)
    simp only [PaethOpt, PaethRef, hmin, hmax, Abs]
    rw [UDiv3_eq_div3 _ (by omega) (by omega)]
    rw [i32and_not_sar _ _ (by omega) (by omega),
        i32and_not_sar _ _ (by omega) (by omega)]
    split_ifs <;> omega
  · have hmin : OptDePng.Min a b = b := by unfold OptDePng.Min; split_ifs <;> omega
    have hmax : OptDePng.Max a b = a := by unfold OptDePng.Max; split_ifs <;> omega
    simp only [PaethOpt, PaethRef, hmin, hmax, Abs]
    rw [UDiv3_eq_div3 _ (by omega) (by omega)]
    rw [i32and_not_sar _ _ (by omega) (by omega),
        i32and_not_sar _ _ (by omega) (by omega)]
    split_ifs <;> omega

/-- Witness for C2: the equivalence at the concrete triple `(100, 50, 0)`,
where both sides evaluate to `100`. -/
theorem PaethOpt_eq_PaethRef_witness :
    PaethOpt 100 50 0 = PaethRef 50 100 0 :=
  PaethOpt_eq_PaethRef 100 50 0 (by decide) (by decide) (by decide)

/-- C5: applying the reference kernel with `bpp = 1, w = 4, h = 2` to the
buffer with row 0 `[0, 10, 20, 30, 40]` (filter None) and row 1
`[3, 2, 4, 6, 8]` (filter Avg) leaves row 0's pixel bytes unchanged and
reconstructs row 1's pixel bytes as `[7, 17, 29, 42]`, the floor-average
semantics. -/
theorem filterRef_avg_scenario :
    OptDePngFilterRef [0, 10, 20, 30, 40, 3, 2, 4, 6, 8] 2 1 5
      = some [0, 10, 20, 30, 40, 3, 7, 17, 29, 42] := by decide

/-- The specialized scalar kernel agrees with the reference kernel on
every buffer for each supported `bpp` (their C bodies are identical, with
`bpp` monomorphized). -/
theorem filterOpt_eq_filterRef (buf : List Nat) (h bpp bpl : Nat)
    (hbpp : bpp = 1 ∨ bpp = 2 ∨ bpp = 3 ∨ bpp = 4 ∨ bpp = 6 ∨ bpp = 8) :
    OptDePngFilterOpt buf h bpp bpl = OptDePngFilterRef buf h bpp bpl := by
  rcases hbpp with rfl | rfl | rfl | rfl | rfl | rfl <;> rfl

/-- A row whose filter byte is `0` (None) is skipped: the scalar row loop
leaves the buffer untouched whenever every row's filter byte is `0`. -/
theorem refRows_allNone (bpp bpl1 : Nat) :
    ∀ (y p : Nat) (u : Option Int) (buf : List Nat),
      (∀ k < y, buf.get? (p + k * (bpl1 + 1)) = some 0) →
      refRows bpp bpl1 y p u buf = some buf := by
  intro y
  induction y with
  | zero => intro p u buf _; rfl
  | succ n ih =>
      intro p u buf hf
      have h0 : buf.get? p = some 0 := by
        have := hf 0 (Nat.succ_pos n)
        simpa using this
      unfold refRows
      rw [h0]
      show (refRow 0 bpp bpl1 (p + 1) u buf).bind _ = some buf
      unfold refRow
      show (refRows bpp bpl1 n _ _ buf)
        = some buf
      have hadv : rowAdvance 0 bpl1 = bpl1 := by unfold rowAdvance; simp
      rw [hadv]
      apply ih
      intro k hk
      have := hf (k + 1) (by omega)
      have harith : p + (k + 1) * (bpl1 + 1) = p + 1 + bpl1 + k * (bpl1 + 1) := by ring
      rw [harith] at this
      exact this


/-- Comparing a buffer's bytes against itself never reports a pixel
mismatch (`OptDePngCompare` inner loop, reads in range). -/
theorem cmpBytes_self (pA : List Nat) :
    ∀ (k off : Nat), off + k ≤ pA.length → cmpBytes pA pA k off = some true := by
  intro k
  induction k with
  | zero => intro off _; rfl
  | succ i ih =>
      intro off hoff
      have hlt : off < pA.length := by omega
      have hv : pA.get? off = some (pA.get ⟨off, hlt⟩) := List.get?_eq_get hlt
      unfold cmpBytes
      rw [hv]
      simp
      exact ih (off + 1) (by omega)

/-- Comparing a buffer's pixel rows against itself succeeds. -/
theorem cmpPixels_self (pA : List Nat) (bpp : Nat) :
    ∀ (x off : Nat), off + x * bpp ≤ pA.length → cmpPixels pA pA bpp x off = some true := by
  intro x
  induction x with
  | zero => intro off _; rfl
  | succ n ih =>
      intro off hoff
      have hsm : (n + 1) * bpp = n * bpp + bpp := Nat.succ_mul n bpp
      unfold cmpPixels
      rw [cmpBytes_self pA bpp off (by omega)]
      simp
      exact ih (off + bpp) (by omega)

/-- The row loop of `OptDePngCompare`, run on a buffer against itself,
returns `false` whenever some row in range carries a filter byte `≥ 5`. -/
theorem cmpRows_self_false (pA : List Nat) (w bpp : Nat) :
    ∀ (h off : Nat), off + h * (1 + w * bpp) ≤ pA.length →
      (∃ y, y < h ∧ ∃ f, pA.get? (off + y * (1 + w * bpp)) = some f ∧ 5 ≤ f) →
      cmpRows pA pA w bpp h off = some false := by
  intro h
  induction h with
  | zero =>
      rintro off _ ⟨y, hy, _⟩
      exact (Nat.not_lt_zero y hy).elim
  | succ n ih =>
      rintro off hlen ⟨y, hy, f, hf, h5⟩
      have hstride : (n + 1) * (1 + w * bpp) = 1 + w * bpp + n * (1 + w * bpp) := by
        rw [Nat.succ_mul]; omega
      have hlt : off < pA.length := by omega
      have hv : pA.get? off = some (pA.get ⟨off, hlt⟩) := List.get?_eq_get hlt
      unfold cmpRows
      rw [hv]
      simp only [Option.bind_eq_bind, Option.some_bind]
      rw [if_neg (show ¬(pA.get ⟨off, hlt⟩ ≠ pA.get ⟨off, hlt⟩) by simp)]
      by_cases hbad : 5 ≤ pA.get ⟨off, hlt⟩
      · rw [if_pos hbad]
      · rw [if_neg hbad]
        have hy0 : y ≠ 0 := by
          intro h0
          subst h0
          simp only [Nat.zero_mul, Nat.add_zero] at hf
          rw [hv] at hf
          exact hbad (by cases hf; omega)
        obtain ⟨y1, rfl⟩ : ∃ y1, y = y1 + 1 := ⟨y - 1, by omega⟩
        rw [cmpPixels_self pA bpp w (off + 1) (by omega)]
        simp only [Option.bind_eq_bind, Option.some_bind]
        rw [if_pos trivial]
        apply ih
        · omega
        · refine ⟨y1, by omega, f, ?_, h5⟩
          have harith : off + (y1 + 1) * (1 + w * bpp)
              = off + 1 + w * bpp + y1 * (1 + w * bpp) := by
            rw [Nat.succ_mul]; omega
          rw [harith] at hf
          exact hf

/-- C7: for identical image buffers with consistent dimensions
(`bpl = w * bpp + 1`) in which some row's filter byte is `≥ 5`,
`OptDePngCompare` returns `false` (it reports the invalid filter byte as
a failure, never success). -/
theorem compare_rejects_invalid_filter (pA : List Nat) (w h bpp bpl : Nat)
    (hbpl : bpl = w * bpp + 1) (hsz : w * bpp + 1 < 2 ^ 32)
    (hlen : pA.length = h * bpl)
    (hbad : ∃ y, y < h ∧ ∃ f, pA.get? (y * bpl) = some f ∧ 5 ≤ f) :
    OptDePngCompare pA pA w h bpp bpl = some false := by
  unfold OptDePngCompare
  rw [Nat.mod_eq_of_lt hsz, if_neg (by omega)]
  have hs : 1 + w * bpp = bpl := by omega
  apply cmpRows_self_false
  · rw [hs, hlen]; omega
  · obtain ⟨y, hy, f, hf, h5⟩ := hbad
    refine ⟨y, hy, f, ?_, h5⟩
    rw [hs]
    simpa using hf

/-- Witness for C7: the one-row buffer `[7, 1]` (filter byte `7 ≥ 5`)
compared against itself yields `false`. -/
theorem compare_rejects_invalid_filter_witness :
    OptDePngCompare [7, 1] [7, 1] 1 1 1 2 = some false :=
  compare_rejects_invalid_filter [7, 1] 1 1 1 2 rfl (by norm_num) rfl
    ⟨0, by norm_num, 7, rfl, by norm_num⟩

/-- C8: `OptDePngRandomImage` is deterministic — two calls with equal
arguments yield byte-for-byte identical buffers (the C function reads
only its arguments and the constant table). -/
theorem randomImage_deterministic (w h bpp filter seed : Nat) (b1 b2 : List Nat)
    (h1 : OptDePngRandomImage w h bpp filter seed = some b1)
    (h2 : OptDePngRandomImage w h bpp filter seed = some b2) :
    b1 = b2 :=
  Option.some.inj (h1.symm.trans h2)

/-- Witness for C8 at `(w, h, bpp, filter, seed) = (1, 2, 1, 0, 0)`. -/
theorem randomImage_deterministic_witness :
    ([0, 217, 0, 250] : List Nat) = [0, 217, 0, 250] :=
  randomImage_deterministic 1 2 1 0 0 _ _ (by decide) (by decide)

/-- The generator's inner byte loop emits exactly `x` bytes. -/
theorem randData_fst_length : ∀ (x i0 i1 : Nat), (randData x i0 i1).1.length = x := by
  intro x
  induction x using Nat.strong_induction_on with
  | _ x ih =>
    match x with
    | 0 => intro i0 i1; rfl
    | 1 => intro i0 i1; rfl
    | (m + 2) =>
        intro i0 i1
        have hm := ih m (by omega)
        simp [randData, hm]

/-- Filter-byte values of the generated image: row 0 carries `0`; later
rows carry `filter` itself when `filter < 5` and the cycled value
`(y - 1) % 5` otherwise (`f` threading the `if (++f >= 5) f = 0` state). -/
theorem randRows_get (w1 filter : Nat) (hfil : filter < 2 ^ 32) :
    ∀ (remaining y i0 i1 f : Nat),
      (5 ≤ filter → (y ≤ 1 → f = filter) ∧ (2 ≤ y → f = (y - 2) % 5)) →
      ∀ k, k < remaining →
        (randRows w1 filter remaining y i0 i1 f).get? (k * (w1 + 1))
          = some (if y + k = 0 then 0 else if filter < 5 then filter else (y + k - 1) % 5) := by
  intro remaining
  induction remaining with
  | zero => intro y i0 i1 f _ k hk; exact absurd hk (Nat.not_lt_zero k)
  | succ n ih =>
      intro y i0 i1 f hinv k hk
      unfold randRows
      cases k with
      | zero =>
          simp only [Nat.zero_mul, Nat.add_zero]
          rw [List.get?_append (by simp)]
          simp only [List.get?]
          by_cases hy0 : y = 0
          · simp [hy0]
          · rw [if_neg hy0, if_neg hy0]
            by_cases hf5 : filter < 5
            · rw [if_pos hf5, if_pos hf5]
            · rw [if_neg hf5, if_neg hf5]
              obtain ⟨hle, hge⟩ := hinv (by omega)
              refine congrArg some ?_
              by_cases hy1 : y = 1
              · have hfv : f = filter := hle (by omega)
                subst hfv hy1
                split_ifs <;> omega
              · have hfv : f = (y - 2) % 5 := hge (by omega)
                subst hfv
                split_ifs <;> omega
      | succ k1 =>
          have hlen : (randData w1 i0 i1).1.length = w1 := randData_fst_length w1 i0 i1
          rw [List.get?_append_right (by simp [hlen])]
          have hidx : (k1 + 1) * (w1 + 1)
              - (List.length ((if y = 0 then 0
                  else if filter < 5 then filter
                  else if 5 ≤ (f + 1) % 2 ^ 32 then 0 else (f + 1) % 2 ^ 32) :: (randData w1 i0 i1).1))
              = k1 * (w1 + 1) := by
            simp only [List.length_cons, hlen, Nat.succ_mul]; omega
          rw [hidx]
          have harr : y + (k1 + 1) = (y + 1) + k1 := by omega
          rw [harr]
          apply ih
          · intro h5
            obtain ⟨hle, hge⟩ := hinv h5
            constructor
            · intro hy1
              have hy0 : y = 0 := by omega
              simp [hy0]
              exact hle (by omega)
            · intro hy2
              by_cases hy0 : y = 0
              · omega
              · rw [if_neg hy0, if_neg (by omega : ¬ filter < 5)]
                by_cases hy1 : y = 1
                · have hfv : f = filter := hle (by omega)
                  subst hfv hy1
                  split_ifs <;> omega
                · have hfv : f = (y - 2) % 5 := hge (by omega)
                  subst hfv
                  split_ifs <;> omega
          · omega

/-- C9: every buffer produced by `OptDePngRandomImage` has filter byte
`0` in row 0, filter byte `filter` in every later row when `filter < 5`,
and the cycled value `(y - 1) % 5 ∈ {0, 1, 2, 3, 4}` in row `y ≥ 1` when
`filter = 5`. -/
theorem randomImage_filter_bytes (w h bpp filter seed : Nat) (buf : List Nat)
    (hfil : filter < 2 ^ 32) (hbw : w * bpp < 2 ^ 32)
    (hgen : OptDePngRandomImage w h bpp filter seed = some buf)
    (y : Nat) (hy : y < h) :
    buf.get? (y * (w * bpp + 1))
      = some (if y = 0 then 0 else if filter < 5 then filter else (y - 1) % 5) := by
  unfold OptDePngRandomImage at hgen
  simp only [Nat.mod_eq_of_lt hbw] at hgen
  by_cases hg : w * bpp = 0 ∨ 2 ^ 32 ≤ (w * bpp + 1) * h
  · rw [if_pos hg] at hgen; cases hgen
  · rw [if_neg hg] at hgen
    have hbuf := Option.some.inj hgen
    subst hbuf
    have := randRows_get (w * bpp) filter hfil h 0
      (seed % OptDePngRandomData.length)
      (seed * 33 % 2 ^ 32 % OptDePngRandomData.length) filter
      (by intro _; exact ⟨fun _ => rfl, fun hc => absurd hc (by omega)⟩) y hy
    simpa using this

/-- Witness for C9: the image generated at `(1, 7, 1, 5, 0)`, whose row
3 carries the cycled filter byte `(3 - 1) % 5 = 2`. -/
theorem randomImage_filter_bytes_witness :
    ([0, 217, 0, 250, 1, 167, 2, 32, 3, 107, 4, 211, 0, 65] : List Nat).get?
        (3 * (1 * 1 + 1))
      = some (if 3 = 0 then 0 else if 5 < 5 then 5 else (3 - 1) % 5) :=
  randomImage_filter_bytes 1 7 1 5 0 _ (by norm_num) (by norm_num) (by decide) 3
    (by norm_num)

/-- The Up loop dereferences `u` on its first iteration: with the NULL
cursor it has no defined result. -/
theorem upLoop_none (i p : Nat) (buf : List Nat) :
    upLoop (i + 1) p none buf = none := by
  cases hx : buf.get? p <;> simp [upLoop, getU, hx]

/-- The Avg prologue dereferences `u` on its first iteration. -/
theorem avgFirst_none (k p i : Nat) (buf : List Nat) :
    avgFirst (k + 1) p i none buf = none := by
  cases hx : buf.get? (p + i) <;> simp [avgFirst, getU, hx]

/-- The Paeth prologue dereferences `u` on its first iteration. -/
theorem paethFirst_none (k p i : Nat) (buf : List Nat) :
    paethFirst (k + 1) p i none buf = none := by
  cases hx : buf.get? (p + i) <;> simp [paethFirst, getU, hx]

/-- The SSE2 `bpp = 1` Paeth loop reads `u[0]` immediately. -/
theorem sse2Paeth1Loop_none (k p pz uz : Nat) (buf : List Nat) :
    sse2Paeth1Loop buf p none pz uz (k + 1) = none := by
  simp [sse2Paeth1Loop, getU]

/-- The 64-byte Up loop's first action is a load through `u`. -/
theorem sse2UpL64_none (buf : List Nat) (p i : Nat) :
    sse2UpL64 buf p none i = if 64 ≤ i then none else some (buf, p, none, i) := by
  rw [sse2UpL64]
  split <;> simp [loadUVec]

/-- The 8-byte Up loop's first action is a load through `u`. -/
theorem sse2UpL8_none (buf : List Nat) (p i : Nat) :
    sse2UpL8 buf p none i = if 8 ≤ i then none else some (buf, p, none, i) := by
  rw [sse2UpL8]
  split <;> simp [loadlU, loadUVec]

/-- `OptAlignDiff(p, 16)` is a value in `[0, 15]`. -/
theorem alignDiff_lt (p : Nat) : OptAlignDiff p 16 < 16 := by
  have h : Nat.land (16 - Nat.land p (16 - 1)) (16 - 1) ≤ 16 - 1 := Nat.and_le_right
  unfold OptAlignDiff
  omega

/-- The SSE2 Up case always reads through `u` when the row has at least
one pixel byte: with the NULL cursor every control path faults. -/
theorem sse2UpCase_none (base : Nat) (buf : List Nat) (p bpl1 : Nat)
    (h1 : 1 ≤ bpl1) : sse2UpCase base buf p none bpl1 = none := by
  unfold sse2UpCase
  by_cases h24 : 24 ≤ bpl1
  · rw [if_pos h24]
    rcases Nat.eq_zero_or_pos (OptAlignDiff (base + p) 16) with hj | hj
    · have hup : upLoop (OptAlignDiff (base + p) 16) p none buf = some buf := by
        rw [hj]; rfl
      have hd := alignDiff_lt (base + p)
      simp only [hup, Option.map_none, Option.some_bind, Option.bind_eq_bind]
      rw [show (none : Option Int).map (· + (OptAlignDiff (base + p) 16 : Int)) = none
        from rfl]
      rw [sse2UpL64_none]
      by_cases h64 : 64 ≤ bpl1 - OptAlignDiff (base + p) 16
      · rw [if_pos h64]; rfl
      · rw [if_neg h64]
        simp only [Option.some_bind]
        rw [sse2UpL8_none, if_pos (by omega)]
        rfl
    · obtain ⟨j, hjj⟩ : ∃ j, OptAlignDiff (base + p) 16 = j + 1 :=
        ⟨OptAlignDiff (base + p) 16 - 1, by omega⟩
      rw [hjj]
      simp [upLoop_none]
  · rw [if_neg h24]
    obtain ⟨i1, hi⟩ : ∃ i1, bpl1 = i1 + 1 := ⟨bpl1 - 1, by omega⟩
    rw [hi]
    simp [upLoop_none]

/-- The SSE2 Avg case reads `u[0]` in its prologue. -/
theorem sse2AvgCase_none (bpp base p bpl1 : Nat) (buf : List Nat) (hb : 1 ≤ bpp) :
    sse2AvgCase bpp base buf p none bpl1 = none := by
  obtain ⟨k, rfl⟩ : ∃ k, bpp = k + 1 := ⟨bpp - 1, by omega⟩
  unfold sse2AvgCase
  simp [avgFirst_none]

/-- The SSE2 Paeth case reads `u` in its first iteration (both the
`bpp = 1` scalar loop and the general prologue). -/
theorem sse2PaethCase_none (bpp base p bpl1 : Nat) (buf : List Nat)
    (hb : 1 ≤ bpp) (h1 : 1 ≤ bpl1) :
    sse2PaethCase bpp base buf p none bpl1 = none := by
  unfold sse2PaethCase
  by_cases hb1 : bpp = 1
  · rw [if_pos hb1]
    obtain ⟨k, rfl⟩ : ∃ k, bpl1 = k + 1 := ⟨bpl1 - 1, by omega⟩
    exact sse2Paeth1Loop_none k p 0 0 buf
  · rw [if_neg hb1]
    obtain ⟨k, rfl⟩ : ∃ k, bpp = k + 1 := ⟨bpp - 1, by omega⟩
    simp [paethFirst_none]

/-- A scalar-kernel row carrying filter Up, Avg, or Paeth dereferences
the NULL previous-row cursor. -/
theorem refRow_none (f bpp bpl1 p : Nat) (buf : List Nat)
    (hb : 1 ≤ bpp) (h1 : 1 ≤ bpl1) (hf : f = 2 ∨ f = 3 ∨ f = 4) :
    refRow f bpp bpl1 p none buf = none := by
  rcases hf with rfl | rfl | rfl
  · show upLoop bpl1 p none buf = none
    obtain ⟨k, rfl⟩ : ∃ k, bpl1 = k + 1 := ⟨bpl1 - 1, by omega⟩
    exact upLoop_none k p buf
  · obtain ⟨k, rfl⟩ : ∃ k, bpp = k + 1 := ⟨bpp - 1, by omega⟩
    show (do
      let buf ← avgFirst (k + 1) p 0 none buf
      avgLoop (k + 1) (bpl1 - (k + 1)) p ((none : Option Int).map (· + ((k + 1 : Nat) : Int))) buf) = none
    simp [avgFirst_none]
  · obtain ⟨k, rfl⟩ : ∃ k, bpp = k + 1 := ⟨bpp - 1, by omega⟩
    show (do
      let buf ← paethFirst (k + 1) p 0 none buf
      paethLoop (k + 1) (bpl1 - (k + 1)) p none buf) = none
    simp [paethFirst_none]

/-- An SSE2-kernel row carrying filter Up, Avg, or Paeth dereferences
the NULL previous-row cursor. -/
theorem sse2Row_none (f bpp bpl1 base p : Nat) (buf : List Nat)
    (hb : 1 ≤ bpp) (h1 : 1 ≤ bpl1) (hf : f = 2 ∨ f = 3 ∨ f = 4) :
    sse2Row f bpp bpl1 base p none buf = none := by
  rcases hf with rfl | rfl | rfl
  · exact sse2UpCase_none base buf p bpl1 h1
  · exact sse2AvgCase_none bpp base p bpl1 buf hb
  · exact sse2PaethCase_none bpp base p bpl1 buf hb h1

/-- C3 counterexample: on the one-row image `[2, 5]` (`h = 1, bpp = 1,
bpl = 2`) whose row-0 filter byte is Up, the reference kernel
dereferences its NULL previous-row cursor (no defined result, `none`),
whereas the implicit-zero-previous-row semantics the claim describes
(`OptDePngFilterRefZ`) reconstructs `[2, 5]`. -/
theorem firstRowZero_counterexample :
    OptDePngFilterRef [2, 5] 1 1 2 ≠ OptDePngFilterRefZ [2, 5] 1 1 2 := by decide

/-- C3 amended: the kernels do not materialize a zero row for row 0 —
for every image buffer whose row-0 filter byte is Up, Avg, or Paeth,
each of the three kernels dereferences the NULL previous-row cursor `u`
during row 0 and so has no defined result (`none`), rather than
reconstructing the row as if an all-zero previous row were present. -/
theorem firstRow_up_avg_paeth_faults (buf : List Nat) (h bpp bpl w base f : Nat)
    (hh : 1 ≤ h)
    (hbpp : bpp = 1 ∨ bpp = 2 ∨ bpp = 3 ∨ bpp = 4 ∨ bpp = 6 ∨ bpp = 8)
    (hbpl : bpl = w * bpp + 1) (hw : 1 ≤ w)
    (hf : buf.get? 0 = some f) (hf234 : f = 2 ∨ f = 3 ∨ f = 4) :
    OptDePngFilterRef buf h bpp bpl = none ∧
    OptDePngFilterOpt buf h bpp bpl = none ∧
    OptDePngFilterSSE2 base buf h bpp bpl = none := by
  have hbpp1 : 1 ≤ bpp := by rcases hbpp with rfl | rfl | rfl | rfl | rfl | rfl <;> omega
  have hwb : 1 ≤ w * bpp := Nat.mul_pos hw hbpp1
  have hbpl1 : 1 ≤ bpl - 1 := by omega
  obtain ⟨n, rfl⟩ : ∃ n, h = n + 1 := ⟨h - 1, by omega⟩
  have hRefRows : ∀ b, 1 ≤ b → refRows b (bpl - 1) (n + 1) 0 none buf = none := by
    intro b hb
    unfold refRows
    rw [hf]
    have hr := refRow_none f b (bpl - 1) 1 buf hb hbpl1 hf234
    simp [hr]
  have hSseRows : ∀ b, 1 ≤ b → sse2Rows b (bpl - 1) base (n + 1) 0 none buf = none := by
    intro b hb
    unfold sse2Rows
    rw [hf]
    have hr := sse2Row_none f b (bpl - 1) base 1 buf hb hbpl1 hf234
    simp [hr]
  have hRef : OptDePngFilterRef buf (n + 1) bpp bpl = none := by
    unfold OptDePngFilterRef
    rw [if_neg (by omega)]
    exact hRefRows bpp hbpp1
  refine ⟨hRef, ?_, ?_⟩
  · rcases hbpp with rfl | rfl | rfl | rfl | rfl | rfl <;>
      · show OptDePngFilterOpt_T _ buf (n + 1) bpl = none
        unfold OptDePngFilterOpt_T
        rw [if_neg (by omega)]
        exact hRefRows _ (by omega)
  · rcases hbpp with rfl | rfl | rfl | rfl | rfl | rfl <;>
      · show OptDePngFilterSSE2_T _ base buf (n + 1) bpl = none
        unfold OptDePngFilterSSE2_T
        rw [if_neg (by omega)]
        exact hSseRows _ (by omega)

/-- Witness for the amended C3 at the concrete image `[2, 5]`. -/
theorem firstRow_up_avg_paeth_faults_witness :
    OptDePngFilterRef [2, 5] 1 1 2 = none ∧
    OptDePngFilterOpt [2, 5] 1 1 2 = none ∧
    OptDePngFilterSSE2 0 [2, 5] 1 1 2 = none :=
  firstRow_up_avg_paeth_faults [2, 5] 1 1 2 1 0 2 (by norm_num) (by norm_num)
    (by norm_num) (by norm_num) (by decide) (by norm_num)

/-- The SSE2 row loop leaves the buffer untouched when every row's
filter byte is `0`. -/
theorem sse2Rows_allNone (bpp bpl1 base : Nat) :
    ∀ (y p : Nat) (u : Option Int) (buf : List Nat),
      (∀ k < y, buf.get? (p + k * (bpl1 + 1)) = some 0) →
      sse2Rows bpp bpl1 base y p u buf = some buf := by
  intro y
  induction y with
  | zero => intro p u buf _; rfl
  | succ n ih =>
      intro p u buf hf
      have h0 : buf.get? p = some 0 := by
        have := hf 0 (Nat.succ_pos n)
        simpa using this
      unfold sse2Rows
      rw [h0]
      show (sse2Row 0 bpp bpl1 base (p + 1) u buf).bind _ = some buf
      unfold sse2Row
      show (sse2Rows bpp bpl1 base n _ _ buf) = some buf
      have hadv : rowAdvance 0 bpl1 = bpl1 := by unfold rowAdvance; simp
      rw [hadv]
      apply ih
      intro k hk
      have := hf (k + 1) (by omega)
      have harith : p + (k + 1) * (bpl1 + 1) = p + 1 + bpl1 + k * (bpl1 + 1) := by ring
      rw [harith] at this
      exact this

/-- C6: on a buffer in which every row's filter byte is `0` (None), each
of the three defilter kernels leaves the buffer — in particular every
pixel byte — bit-identical to its input. -/
theorem allNone_rows_identity (buf : List Nat) (h bpp bpl base : Nat)
    (hh : 1 ≤ h) (hbpl : 1 ≤ bpl)
    (hfil : ∀ y, y < h → buf.get? (y * bpl) = some 0) :
    OptDePngFilterRef buf h bpp bpl = some buf ∧
    OptDePngFilterOpt buf h bpp bpl = some buf ∧
    OptDePngFilterSSE2 base buf h bpp bpl = some buf := by
  have hs : bpl - 1 + 1 = bpl := by omega
  have hfil2 : ∀ k, k < h → buf.get? (0 + k * (bpl - 1 + 1)) = some 0 := by
    intro k hk
    rw [hs, Nat.zero_add]
    exact hfil k hk
  have hRall : ∀ b, refRows b (bpl - 1) h 0 none buf = some buf := fun b =>
    refRows_allNone b (bpl - 1) h 0 none buf hfil2
  have hSall : ∀ b, sse2Rows b (bpl - 1) base h 0 none buf = some buf := fun b =>
    sse2Rows_allNone b (bpl - 1) base h 0 none buf hfil2
  refine ⟨?_, ?_, ?_⟩
  · unfold OptDePngFilterRef
    rw [if_neg (by omega)]
    exact hRall bpp
  · unfold OptDePngFilterOpt
    split
    · unfold OptDePngFilterOpt_T; rw [if_neg (by omega)]; exact hRall 1
    · unfold OptDePngFilterOpt_T; rw [if_neg (by omega)]; exact hRall 2
    · unfold OptDePngFilterOpt_T; rw [if_neg (by omega)]; exact hRall 3
    · unfold OptDePngFilterOpt_T; rw [if_neg (by omega)]; exact hRall 4
    · unfold OptDePngFilterOpt_T; rw [if_neg (by omega)]; exact hRall 6
    · unfold OptDePngFilterOpt_T; rw [if_neg (by omega)]; exact hRall 8
    · rfl
  · unfold OptDePngFilterSSE2
    split
    · unfold OptDePngFilterSSE2_T; rw [if_neg (by omega)]; exact hSall 1
    · unfold OptDePngFilterSSE2_T; rw [if_neg (by omega)]; exact hSall 2
    · unfold OptDePngFilterSSE2_T; rw [if_neg (by omega)]; exact hSall 3
    · unfold OptDePngFilterSSE2_T; rw [if_neg (by omega)]; exact hSall 4
    · unfold OptDePngFilterSSE2_T; rw [if_neg (by omega)]; exact hSall 6
    · unfold OptDePngFilterSSE2_T; rw [if_neg (by omega)]; exact hSall 8
    · rfl

/-- Witness for C6 on a two-row all-None image. -/
theorem allNone_rows_identity_witness :
    OptDePngFilterRef [0, 9, 0, 7] 2 1 2 = some [0, 9, 0, 7] ∧
    OptDePngFilterOpt [0, 9, 0, 7] 2 1 2 = some [0, 9, 0, 7] ∧
    OptDePngFilterSSE2 5 [0, 9, 0, 7] 2 1 2 = some [0, 9, 0, 7] :=
  allNone_rows_identity [0, 9, 0, 7] 2 1 2 5 (by norm_num) (by norm_num) (by decide)

/-- C10: for `bpp ∉ {1, 2, 3, 4, 6, 8}` the dispatch `switch` of
`OptDePngFilterOpt` and of `OptDePngFilterSSE2` has no matching case and
no kernel runs: the buffer is returned entirely unchanged. -/
theorem dispatch_noop_unsupported_bpp (buf : List Nat) (h bpp bpl base : Nat)
    (hb : ¬(bpp = 1 ∨ bpp = 2 ∨ bpp = 3 ∨ bpp = 4 ∨ bpp = 6 ∨ bpp = 8)) :
    OptDePngFilterOpt buf h bpp bpl = some buf ∧
    OptDePngFilterSSE2 base buf h bpp bpl = some buf := by
  constructor
  · unfold OptDePngFilterOpt
    split <;> simp_all
  · unfold OptDePngFilterSSE2
    split <;> simp_all

/-- Witness for C10 at `bpp = 5`. -/
theorem dispatch_noop_unsupported_bpp_witness :
    OptDePngFilterOpt [5, 1, 2, 3, 4, 5] 1 5 6 = some [5, 1, 2, 3, 4, 5] ∧
    OptDePngFilterSSE2 0 [5, 1, 2, 3, 4, 5] 1 5 6 = some [5, 1, 2, 3, 4, 5] :=
  dispatch_noop_unsupported_bpp [5, 1, 2, 3, 4, 5] 1 5 6 0 (by decide)
